import Mathlib

/-!
Shallow embedding of `src/subnet.c` (tinc's subnet handling module): the route-entry
data model (`subnet_t`), the ordering policy (`subnet_compare` and its per-kind
helpers), the global route store with its two-slot per-family lookup cache, the
address-family lookup routines, and the text codec (`str2net` / `net2str`).

Modelling conventions:
  - C byte arrays are `List Nat` (each element a byte value); `memcmp`/`strcmp`
    become sign-valued comparisons on those lists.
  - The splay tree is modelled by its in-order element sequence (a sorted list);
    tree internals are outside this file (splay_tree.c), so insertion, search and
    deletion are modelled from the spec's ordered-multiset description.
  - `sscanf`/`snprintf` conversions are modelled character-by-character following
    C scanf/strtoul semantics (whitespace skip, optional sign, optional 0x for %x,
    value wrap to the destination width).
  - Machine integers: `uint16_t` conversions wrap modulo 65536, `uint8_t` stores
    truncate modulo 256.  `int` values (weight, prefix length) are plain `Int`;
    no claim exercises `int` overflow.
-/

set_option linter.unusedVariables false

/-- Modelled from the spec: the owning node (`node_t`, from node.h which is outside
this file) is visible to this module only through its `name` (a NUL-free C string,
compared with `strcmp`) and its `status.reachable` boolean. -/
structure node_t where
  name : List Nat
  reachable : Bool
deriving DecidableEq

/-- Modelled from the spec: kind discriminant for MAC entries (subnet.h is outside
this file; the spec fixes MAC < IPv4 < IPv6 as integer codes). -/
def SUBNET_MAC : Nat := 0

/-- Modelled from the spec: kind discriminant for IPv4 entries. -/
def SUBNET_IPV4 : Nat := 1

/-- Modelled from the spec: kind discriminant for IPv6 entries. -/
def SUBNET_IPV6 : Nat := 2

/-- `subnet_t`: a route entry.  The C `union` over the three variants is modelled
with one field per variant (only the fields of the active variant are meaningful;
the C union overlays them in memory).  `ipv4Address` and `macAddress` are byte
lists; `ipv6Address` is the list of eight `uint16_t` cells exactly as stored in C,
i.e. each cell holds `htons` of the parsed hextet (little-endian host assumed;
every claim proved here is independent of host byte order). -/
structure subnet_t where
  type : Nat
  owner : Option node_t
  weight : Int
  macAddress : List Nat
  ipv4Address : List Nat
  ipv6Address : List Nat
  prefixlength : Int
deriving DecidableEq

/-- `memcmp` over two equal-length byte arrays: sign of the first differing pair. -/
def memcmpBytes : List Nat → List Nat → Int
  | a :: as, b :: bs => if a = b then memcmpBytes as bs else (a : Int) - (b : Int)
  | _, _ => 0

/-- `strcmp` over NUL-terminated byte strings, modelled on NUL-free byte lists:
running off the end of one list plays the role of hitting its NUL byte. -/
def strcmpBytes : List Nat → List Nat → Int
  | [], [] => 0
  | [], b :: _ => -(b : Int)
  | a :: _, [] => (a : Int)
  | a :: as, b :: bs => if a = b then strcmpBytes as bs else (a : Int) - (b : Int)

/-- The name of an (optional) owner; only ever used when the owner is present. -/
def ownerName : Option node_t → List Nat
  | some n => n.name
  | none => []

/-- `subnet_compare_mac`: address bytes, then weight, then (when both owners are
present) the owners' names. -/
def subnet_compare_mac (a b : subnet_t) : Int :=
  let result := memcmpBytes a.macAddress b.macAddress
  if result ≠ 0 then result
  else
    let result := a.weight - b.weight
    if result ≠ 0 ∨ a.owner = none ∨ b.owner = none then result
    else strcmpBytes (ownerName a.owner) (ownerName b.owner)

/-- `subnet_compare_ipv4`: prefix length descending, then address bytes, then
weight, then owner name. -/
def subnet_compare_ipv4 (a b : subnet_t) : Int :=
  let result := b.prefixlength - a.prefixlength
  if result ≠ 0 then result
  else
    let result := memcmpBytes a.ipv4Address b.ipv4Address
    if result ≠ 0 then result
    else
      let result := a.weight - b.weight
      if result ≠ 0 ∨ a.owner = none ∨ b.owner = none then result
      else strcmpBytes (ownerName a.owner) (ownerName b.owner)

/-- The sixteen in-memory bytes of an IPv6 address, from its stored `uint16_t`
cells (little-endian host: low byte of each cell first).  Since each cell holds
`htons` of its hextet, this byte sequence is the network-order byte string of
the address on either host endianness. -/
def ipv6Bytes (groups : List Nat) : List Nat :=
  (groups.map (fun g => [g % 256, g / 256 % 256])).flatten

/-- `subnet_compare_ipv6`: prefix length descending, then the sixteen address
bytes — `memcmp` over `sizeof(ipv6_t)` compares the in-memory byte sequence of
the eight `uint16_t` cells, i.e. the network-order bytes of the address —
then weight, then owner name. -/
def subnet_compare_ipv6 (a b : subnet_t) : Int :=
  let result := b.prefixlength - a.prefixlength
  if result ≠ 0 then result
  else
    let result := memcmpBytes (ipv6Bytes a.ipv6Address) (ipv6Bytes b.ipv6Address)
    if result ≠ 0 then result
    else
      let result := a.weight - b.weight
      if result ≠ 0 ∨ a.owner = none ∨ b.owner = none then result
      else strcmpBytes (ownerName a.owner) (ownerName b.owner)

/-- `subnet_compare`: kind code first, then the per-kind comparison.  On an
unknown kind the C code logs and exits the process; that unreachable branch is
modelled as `0`. -/
def subnet_compare (a b : subnet_t) : Int :=
  let result := (a.type : Int) - (b.type : Int)
  if result ≠ 0 then result
  else if a.type = SUBNET_MAC then subnet_compare_mac a b
  else if a.type = SUBNET_IPV4 then subnet_compare_ipv4 a b
  else if a.type = SUBNET_IPV6 then subnet_compare_ipv6 a b
  else 0

/-- Modelled from the spec: `splay_insert` (splay_tree.c is outside this file)
inserts into the ordered multiset; the in-order sequence stays sorted by the tree
comparator. -/
def splay_insert (tree : List subnet_t) (x : subnet_t) : List subnet_t :=
  match tree with
  | [] => [x]
  | y :: ys => if subnet_compare x y < 0 then x :: y :: ys else y :: splay_insert ys x

/-- Modelled from the spec: `splay_search` returns an element the comparator puts
equal to the probe, or absent. -/
def splay_search (tree : List subnet_t) (x : subnet_t) : Option subnet_t :=
  tree.find? (fun y => subnet_compare x y == 0)

/-- Modelled from the spec: `splay_delete` removes one element the comparator puts
equal to the probe; removing a non-present element is a no-op. -/
def splay_delete (tree : List subnet_t) (x : subnet_t) : List subnet_t :=
  match tree with
  | [] => []
  | y :: ys => if subnet_compare x y == 0 then ys else y :: splay_delete ys x

/-- One address family's lookup cache: two slots of
(queried address, resolved entry-or-absent, validity flag) plus the toggling
replacement index (`cache_ipv4_slot` / `cache_ipv6_slot` in C, an int toggled
with `!`, hence a `Bool` here). -/
structure family_cache where
  address0 : List Nat
  address1 : List Nat
  result0 : Option subnet_t
  result1 : Option subnet_t
  valid0 : Bool
  valid1 : Bool
  slot : Bool
deriving DecidableEq

/-- The module's global mutable state: the global splay tree (as its in-order
sequence) and the two per-family caches.  The per-owner trees (`n->subnet_tree`)
are not represented: no claim refers to them. -/
structure subnet_state where
  subnet_tree : List subnet_t
  cache_ipv4 : family_cache
  cache_ipv6 : family_cache
deriving DecidableEq

/-- `subnet_cache_flush`: mark all four cache slots invalid. -/
def subnet_cache_flush (s : subnet_state) : subnet_state :=
  { s with
    cache_ipv4 := { s.cache_ipv4 with valid0 := false, valid1 := false }
    cache_ipv6 := { s.cache_ipv6 with valid0 := false, valid1 := false } }

/-- `subnet_add`: set the owner, insert into the global tree (the per-owner tree
is not modelled), flush the cache. -/
def subnet_add (n : node_t) (subnet : subnet_t) (s : subnet_state) : subnet_state :=
  let subnet := { subnet with owner := some n }
  subnet_cache_flush { s with subnet_tree := splay_insert s.subnet_tree subnet }

/-- `subnet_del`: remove from the global tree (the per-owner tree is not
modelled), flush the cache. -/
def subnet_del (n : node_t) (subnet : subnet_t) (s : subnet_state) : subnet_state :=
  subnet_cache_flush { s with subnet_tree := splay_delete s.subnet_tree subnet }

/-- `p->owner->status.reachable`.  The C code dereferences the owner without a
null check (stored entries always have one); an absent owner is read as
unreachable here. -/
def ownerReachable (p : subnet_t) : Bool :=
  match p.owner with
  | some n => n.reachable
  | none => false

/-- Big-endian value of a byte sequence. -/
def bytesToNat : List Nat → Nat
  | [] => 0
  | b :: bs => b * 2 ^ (8 * bs.length) + bytesToNat bs

/-- Modelled from the spec: `maskcmp` (netutl.c is outside this file) compares two
equal-length byte arrays on their first `masklen` bits only — the containment
test "address masked to prefixlength equals candidate's address masked to the
same length".  Returns 0 on equality of the masked values, nonzero otherwise. -/
def maskcmp (a b : List Nat) (masklen : Int) : Int :=
  let total := 8 * a.length
  let shift := total - masklen.toNat
  if bytesToNat a / 2 ^ shift = bytesToNat b / 2 ^ shift then 0 else 1

/-- Byte swap of a `uint16_t` value: `htons`/`ntohs` on a little-endian host. -/
def swap16 (v : Nat) : Nat := v % 256 * 256 + v / 256 % 256

/-- `htons` (system byte-order conversion, modelled for a little-endian host). -/
def htons (v : Nat) : Nat := swap16 v

/-- `ntohs` (system byte-order conversion, modelled for a little-endian host). -/
def ntohs (v : Nat) : Nat := swap16 v

/-- The scan loop of `lookup_subnet_ipv4`: walk the in-order sequence, remember
the most recent containing candidate in `r`, and stop at the first containing
candidate with a reachable owner. -/
def lookup_scan_ipv4 (address : List Nat) : List subnet_t → Option subnet_t → Option subnet_t
  | [], r => r
  | p :: rest, r =>
    if p.type = SUBNET_IPV4 then
      if maskcmp address p.ipv4Address p.prefixlength = 0 then
        if ownerReachable p then some p
        else lookup_scan_ipv4 address rest (some p)
      else lookup_scan_ipv4 address rest r
    else lookup_scan_ipv4 address rest r

/-- The scan loop of `lookup_subnet_ipv6` (same shape, sixteen-byte addresses). -/
def lookup_scan_ipv6 (address : List Nat) : List subnet_t → Option subnet_t → Option subnet_t
  | [], r => r
  | p :: rest, r =>
    if p.type = SUBNET_IPV6 then
      if maskcmp (ipv6Bytes address) (ipv6Bytes p.ipv6Address) p.prefixlength = 0 then
        if ownerReachable p then some p
        else lookup_scan_ipv6 address rest (some p)
      else lookup_scan_ipv6 address rest r
    else lookup_scan_ipv6 address rest r

/-- A zero-initialised `subnet_t` (`subnet_t subnet = {0}` in C). -/
def zeroSubnet : subnet_t :=
  { type := 0, owner := none, weight := 0
    macAddress := [0, 0, 0, 0, 0, 0]
    ipv4Address := [0, 0, 0, 0]
    ipv6Address := [0, 0, 0, 0, 0, 0, 0, 0]
    prefixlength := 0 }

/-- `lookup_subnet_mac`: build a probe from the zero initialiser (owner absent,
weight 0), search the global tree for comparator equality.  Touches neither
address-family cache: it takes no cache input and returns no updated state. -/
def lookup_subnet_mac (address : List Nat) (s : subnet_state) : Option subnet_t :=
  let subnet := { zeroSubnet with type := SUBNET_MAC, macAddress := address, owner := none }
  splay_search s.subnet_tree subnet

/-- `lookup_subnet_ipv4`: two-slot cache check (slot 0 then slot 1), else scan the
global tree, then store the result (present or absent) in the toggled slot. -/
def lookup_subnet_ipv4 (address : List Nat) (s : subnet_state) :
    Option subnet_t × subnet_state :=
  if s.cache_ipv4.valid0 = true ∧ s.cache_ipv4.address0 = address then
    (s.cache_ipv4.result0, s)
  else if s.cache_ipv4.valid1 = true ∧ s.cache_ipv4.address1 = address then
    (s.cache_ipv4.result1, s)
  else
    let r := lookup_scan_ipv4 address s.subnet_tree none
    let slot := !s.cache_ipv4.slot
    let c :=
      if slot then
        { s.cache_ipv4 with slot := slot, address1 := address, result1 := r, valid1 := true }
      else
        { s.cache_ipv4 with slot := slot, address0 := address, result0 := r, valid0 := true }
    (r, { s with cache_ipv4 := c })

/-- `lookup_subnet_ipv6`: same structure as the IPv4 lookup over the IPv6 cache. -/
def lookup_subnet_ipv6 (address : List Nat) (s : subnet_state) :
    Option subnet_t × subnet_state :=
  if s.cache_ipv6.valid0 = true ∧ s.cache_ipv6.address0 = address then
    (s.cache_ipv6.result0, s)
  else if s.cache_ipv6.valid1 = true ∧ s.cache_ipv6.address1 = address then
    (s.cache_ipv6.result1, s)
  else
    let r := lookup_scan_ipv6 address s.subnet_tree none
    let slot := !s.cache_ipv6.slot
    let c :=
      if slot then
        { s.cache_ipv6 with slot := slot, address1 := address, result1 := r, valid1 := true }
      else
        { s.cache_ipv6 with slot := slot, address0 := address, result0 := r, valid0 := true }
    (r, { s with cache_ipv6 := c })

/-- C `isspace` in the POSIX locale. -/
def isSpaceC (c : Char) : Bool :=
  c = ' ' || c = '\t' || c = '\n' || c = '\x0b' || c = '\x0c' || c = '\r'

/-- Value of a decimal digit character, if it is one. -/
def decVal? (c : Char) : Option Nat :=
  if '0' ≤ c ∧ c ≤ '9' then some (c.toNat - 48) else none

/-- Value of a hexadecimal digit character, if it is one. -/
def hexVal? (c : Char) : Option Nat :=
  if '0' ≤ c ∧ c ≤ '9' then some (c.toNat - 48)
  else if 'a' ≤ c ∧ c ≤ 'f' then some (c.toNat - 87)
  else if 'A' ≤ c ∧ c ≤ 'F' then some (c.toNat - 55)
  else none

/-- Consume a maximal run of digits (per `dv`), accumulating the value. -/
def scanDigits (dv : Char → Option Nat) (base : Nat) : List Char → Nat → Nat × List Char
  | c :: cs, acc =>
    match dv c with
    | some d => scanDigits dv base cs (acc * base + d)
    | none => (acc, c :: cs)
  | [], acc => (acc, [])

/-- The optional single sign accepted by `strtoul`/`strtol` after whitespace. -/
def signSplit (input : List Char) : Bool × List Char :=
  match input with
  | c :: cs => if c = '-' then (true, cs) else if c = '+' then (false, cs) else (false, c :: cs)
  | [] => (false, [])

/-- Digits after the optional sign: at least one digit, value wrapped to the
destination width (`%hu`/`%hx` store through `uint16_t`, so `wrap = 65536`); a
negated value wraps the way `strtoul` followed by the narrowing store does. -/
def scanUnsigned (dv : Char → Option Nat) (base wrap : Nat) (neg : Bool)
    (input : List Char) : Option (Nat × List Char) :=
  match input with
  | c :: cs =>
    match dv c with
    | some d =>
      let (v, r) := scanDigits dv base cs d
      some (if neg then (wrap - v % wrap) % wrap else v % wrap, r)
    | none => none
  | [] => none

/-- Does the input start with a `0x`/`0X` hex marker followed by a hex digit
(the only case in which `strtoul` base 16 consumes the marker)? -/
def starts0x : List Char → Bool
  | c0 :: c1 :: c2 :: _ => c0 = '0' && (c1 = 'x' || c1 = 'X') && (hexVal? c2).isSome
  | _ => false

/-- One `%hu` conversion. -/
def scan_hu (input : List Char) : Option (Nat × List Char) :=
  let (neg, r) := signSplit (input.dropWhile isSpaceC)
  scanUnsigned decVal? 10 65536 neg r

/-- One `%hx` conversion. -/
def scan_hx (input : List Char) : Option (Nat × List Char) :=
  let (neg, r) := signSplit (input.dropWhile isSpaceC)
  if starts0x r then scanUnsigned hexVal? 16 65536 neg (r.drop 2)
  else scanUnsigned hexVal? 16 65536 neg r

/-- Digits of a nonnegative decimal number. -/
def scanNat (input : List Char) : Option (Nat × List Char) :=
  match input with
  | c :: cs =>
    match decVal? c with
    | some d => some (scanDigits decVal? 10 cs d)
    | none => none
  | [] => none

/-- One `%d` conversion (`strtol` semantics; `int` overflow is not modelled —
no claim exercises it). -/
def scan_int (input : List Char) : Option (Int × List Char) :=
  let (neg, r) := signSplit (input.dropWhile isSpaceC)
  (scanNat r).map fun p => (if neg then -(p.1 : Int) else (p.1 : Int), p.2)

/-- A literal (non-whitespace) format character: must match the next input
character exactly. -/
def expectChar (c : Char) : List Char → Option (List Char)
  | d :: ds => if d = c then some ds else none
  | [] => none

/-- The optional `#%d` weight tail shared by all five formats: if the `#` or the
number fails to match, `sscanf` still reports the count of the conversions before
it, so the format as a whole succeeds with the weight left at its default. -/
def scan_weight_tail (input : List Char) : Option Int :=
  match expectChar '#' input with
  | none => none
  | some r =>
  match scan_int r with
  | none => none
  | some pw => some pw.1

/-- A `.` literal followed by a `%hu` conversion. -/
def scanHuDot (input : List Char) : Option (Nat × List Char) :=
  match expectChar '.' input with
  | none => none
  | some r => scan_hu r

/-- A `:` literal followed by a `%hx` conversion. -/
def scanHexColon (input : List Char) : Option (Nat × List Char) :=
  match expectChar ':' input with
  | none => none
  | some r => scan_hx r

/-- A `/` literal followed by a `%d` conversion. -/
def scanSlashInt (input : List Char) : Option (Int × List Char) :=
  match expectChar '/' input with
  | none => none
  | some r => scan_int r

/-- `sscanf(str, "%hu.%hu.%hu.%hu/%d#%d", ...) >= 5`. -/
def sscanf_ipv4_cidr (input : List Char) :
    Option ((Nat × Nat × Nat × Nat) × Int × Option Int) :=
  match scan_hu input with
  | none => none
  | some p0 =>
  match scanHuDot p0.2 with
  | none => none
  | some p1 =>
  match scanHuDot p1.2 with
  | none => none
  | some p2 =>
  match scanHuDot p2.2 with
  | none => none
  | some p3 =>
  match scanSlashInt p3.2 with
  | none => none
  | some pl =>
  some ((p0.1, p1.1, p2.1, p3.1), pl.1, scan_weight_tail pl.2)

/-- `sscanf(str, "%hx:%hx:%hx:%hx:%hx:%hx:%hx:%hx/%d#%d", ...) >= 9`. -/
def sscanf_ipv6_cidr (input : List Char) :
    Option (List Nat × Int × Option Int) :=
  match scan_hx input with
  | none => none
  | some p0 =>
  match scanHexColon p0.2 with
  | none => none
  | some p1 =>
  match scanHexColon p1.2 with
  | none => none
  | some p2 =>
  match scanHexColon p2.2 with
  | none => none
  | some p3 =>
  match scanHexColon p3.2 with
  | none => none
  | some p4 =>
  match scanHexColon p4.2 with
  | none => none
  | some p5 =>
  match scanHexColon p5.2 with
  | none => none
  | some p6 =>
  match scanHexColon p6.2 with
  | none => none
  | some p7 =>
  match scanSlashInt p7.2 with
  | none => none
  | some pl =>
  some ([p0.1, p1.1, p2.1, p3.1, p4.1, p5.1, p6.1, p7.1], pl.1, scan_weight_tail pl.2)

/-- `sscanf(str, "%hu.%hu.%hu.%hu#%d", ...) >= 4`. -/
def sscanf_ipv4_host (input : List Char) :
    Option ((Nat × Nat × Nat × Nat) × Option Int) :=
  match scan_hu input with
  | none => none
  | some p0 =>
  match scanHuDot p0.2 with
  | none => none
  | some p1 =>
  match scanHuDot p1.2 with
  | none => none
  | some p2 =>
  match scanHuDot p2.2 with
  | none => none
  | some p3 =>
  some ((p0.1, p1.1, p2.1, p3.1), scan_weight_tail p3.2)

/-- `sscanf(str, "%hx:%hx:%hx:%hx:%hx:%hx:%hx:%hx#%d", ...) >= 8`. -/
def sscanf_ipv6_host (input : List Char) :
    Option (List Nat × Option Int) :=
  match scan_hx input with
  | none => none
  | some p0 =>
  match scanHexColon p0.2 with
  | none => none
  | some p1 =>
  match scanHexColon p1.2 with
  | none => none
  | some p2 =>
  match scanHexColon p2.2 with
  | none => none
  | some p3 =>
  match scanHexColon p3.2 with
  | none => none
  | some p4 =>
  match scanHexColon p4.2 with
  | none => none
  | some p5 =>
  match scanHexColon p5.2 with
  | none => none
  | some p6 =>
  match scanHexColon p6.2 with
  | none => none
  | some p7 =>
  some ([p0.1, p1.1, p2.1, p3.1, p4.1, p5.1, p6.1, p7.1], scan_weight_tail p7.2)

/-- `sscanf(str, "%hx:%hx:%hx:%hx:%hx:%hx#%d", ...) >= 6`. -/
def sscanf_mac (input : List Char) :
    Option (List Nat × Option Int) :=
  match scan_hx input with
  | none => none
  | some p0 =>
  match scanHexColon p0.2 with
  | none => none
  | some p1 =>
  match scanHexColon p1.2 with
  | none => none
  | some p2 =>
  match scanHexColon p2.2 with
  | none => none
  | some p3 =>
  match scanHexColon p3.2 with
  | none => none
  | some p4 =>
  match scanHexColon p4.2 with
  | none => none
  | some p5 =>
  some ([p0.1, p1.1, p2.1, p3.1, p4.1, p5.1], scan_weight_tail p5.2)

/-- The IPv4 octet store loop of `str2net`: each octet is range-checked only at
the moment it is written, so a failing octet returns `false` with the fields
written so far (kind, prefix length, weight, earlier octets) already modified. -/
def write_ipv4_octets (subnet : subnet_t) (i : Nat) : List Nat → Bool × subnet_t
  | [] => (true, subnet)
  | x :: rest =>
    if 255 < x then (false, subnet)
    else write_ipv4_octets { subnet with ipv4Address := subnet.ipv4Address.set i x } (i + 1) rest

/-- The IPv6 group store loop of `str2net`: stores `htons` of each parsed hextet,
no validation. -/
def write_ipv6_groups (subnet : subnet_t) (i : Nat) : List Nat → subnet_t
  | [] => subnet
  | x :: rest =>
    write_ipv6_groups { subnet with ipv6Address := subnet.ipv6Address.set i (htons x) } (i + 1) rest

/-- The MAC byte store loop of `str2net`: the `uint16_t` conversion result is
stored through a `uint8_t`, keeping only the low 8 bits; no validation. -/
def write_mac_bytes (subnet : subnet_t) (i : Nat) : List Nat → subnet_t
  | [] => subnet
  | x :: rest =>
    write_mac_bytes { subnet with macAddress := subnet.macAddress.set i (x % 256) } (i + 1) rest

/-- `str2net`: try the five formats in their fixed order; on the first whose
`sscanf` reaches its required conversion count, validate and store into the
target, mutating it field by field exactly as the C code does.  Returns the
C `bool` result together with the (possibly partially written) target. -/
def str2net (subnet : subnet_t) (subnetstr : List Char) : Bool × subnet_t :=
  match sscanf_ipv4_cidr subnetstr with
  | some ((x0, x1, x2, x3), l, w) =>
    if l < 0 ∨ 32 < l then (false, subnet)
    else
      let subnet := { subnet with type := SUBNET_IPV4, prefixlength := l, weight := w.getD 10 }
      write_ipv4_octets subnet 0 [x0, x1, x2, x3]
  | none =>
  match sscanf_ipv6_cidr subnetstr with
  | some (xs, l, w) =>
    if l < 0 ∨ 128 < l then (false, subnet)
    else
      let subnet := { subnet with type := SUBNET_IPV6, prefixlength := l, weight := w.getD 10 }
      (true, write_ipv6_groups subnet 0 xs)
  | none =>
  match sscanf_ipv4_host subnetstr with
  | some ((x0, x1, x2, x3), w) =>
    let subnet := { subnet with type := SUBNET_IPV4, prefixlength := 32, weight := w.getD 10 }
    write_ipv4_octets subnet 0 [x0, x1, x2, x3]
  | none =>
  match sscanf_ipv6_host subnetstr with
  | some (xs, w) =>
    let subnet := { subnet with type := SUBNET_IPV6, prefixlength := 128, weight := w.getD 10 }
    (true, write_ipv6_groups subnet 0 xs)
  | none =>
  match sscanf_mac subnetstr with
  | some (xs, w) =>
    let subnet := { subnet with type := SUBNET_MAC, weight := w.getD 10 }
    (true, write_mac_bytes subnet 0 xs)
  | none => (false, subnet)

/-- Digit characters of `n` in base `b`, most significant first (the digits
`printf` emits for `%u`/`%x`; lowercase hex, as `Nat.digitChar` produces). -/
def natDigits (b : Nat) (n : Nat) : List Char :=
  if h : b ≤ 1 then []
  else if n < b then [Nat.digitChar n]
  else natDigits b (n / b) ++ [Nat.digitChar (n % b)]
termination_by n
decreasing_by
  exact Nat.div_lt_self (by omega) (by omega)

/-- Characters of a (possibly negative) `%d` conversion. -/
def intChars (i : Int) : List Char :=
  if i < 0 then '-' :: natDigits 10 (-i).toNat else natDigits 10 i.toNat

/-- Join chunks with a separator character (the fixed separators of the
`snprintf` formats). -/
def joinSep (sep : Char) : List (List Char) → List Char
  | [] => []
  | [x] => x
  | x :: xs => x ++ sep :: joinSep sep xs

/-- `net2str`: render the canonical text of an entry.  `none` models the fatal
(process-exiting) unknown-kind branch; `snprintf` truncation is not modelled
(callers pass buffers of at least MAXNETSTR bytes). -/
def net2str (subnet : subnet_t) : Option (List Char) :=
  if subnet.type = SUBNET_MAC then
    some (joinSep ':' (subnet.macAddress.map (natDigits 16)) ++ '#' :: intChars subnet.weight)
  else if subnet.type = SUBNET_IPV4 then
    some (joinSep '.' (subnet.ipv4Address.map (natDigits 10)) ++
      '/' :: intChars subnet.prefixlength ++ '#' :: intChars subnet.weight)
  else if subnet.type = SUBNET_IPV6 then
    some (joinSep ':' (subnet.ipv6Address.map (fun g => natDigits 16 (ntohs g))) ++
      '/' :: intChars subnet.prefixlength ++ '#' :: intChars subnet.weight)
  else none

/-! ### Concrete entries and states used by examples and counterexamples -/

/-- A reachable node named "A". -/
def nodeA : node_t := { name := [65], reachable := true }

/-- An unreachable node named "B". -/
def nodeB : node_t := { name := [66], reachable := false }

/-- `10.0.0.0/24#10`, owned by the unreachable node B. -/
def subnetB24 : subnet_t :=
  { zeroSubnet with
    type := SUBNET_IPV4
    owner := some nodeB
    weight := 10
    ipv4Address := [10, 0, 0, 0]
    prefixlength := 24 }

/-- `10.0.0.0/16#10`, owned by the reachable node A. -/
def subnetA16 : subnet_t :=
  { zeroSubnet with
    type := SUBNET_IPV4
    owner := some nodeA
    weight := 10
    ipv4Address := [10, 0, 0, 0]
    prefixlength := 16 }

/-- `10.0.0.0/8#10`, owned by the unreachable node B. -/
def subnetB8 : subnet_t :=
  { zeroSubnet with
    type := SUBNET_IPV4
    owner := some nodeB
    weight := 10
    ipv4Address := [10, 0, 0, 0]
    prefixlength := 8 }

/-- A stored MAC entry `1:2:3:4:5:6` with the default weight 10, owned by node A. -/
def macEntryW10 : subnet_t :=
  { zeroSubnet with
    type := SUBNET_MAC
    owner := some nodeA
    weight := 10
    macAddress := [1, 2, 3, 4, 5, 6] }

/-- A cache with both slots invalid (the state right after `subnet_cache_flush`,
or after `init_subnets`). -/
def emptyCache : family_cache :=
  { address0 := [], address1 := [], result0 := none, result1 := none
    valid0 := false, valid1 := false, slot := false }

/-- A freshly initialised module state holding the given tree. -/
def mkState (tree : List subnet_t) : subnet_state :=
  { subnet_tree := tree, cache_ipv4 := emptyCache, cache_ipv6 := emptyCache }

/-! ### Cache behaviour -/

/-- Neither slot of a family cache answers for `address`. -/
def cache_miss (c : family_cache) (address : List Nat) : Prop :=
  ¬(c.valid0 = true ∧ c.address0 = address) ∧ ¬(c.valid1 = true ∧ c.address1 = address)

instance (c : family_cache) (address : List Nat) : Decidable (cache_miss c address) := by
  unfold cache_miss
  infer_instance

lemma lookup_subnet_ipv4_of_miss (address : List Nat) (s : subnet_state)
    (h : cache_miss s.cache_ipv4 address) :
    (lookup_subnet_ipv4 address s).1 = lookup_scan_ipv4 address s.subnet_tree none := by
  unfold lookup_subnet_ipv4
  rw [if_neg h.1, if_neg h.2]

lemma lookup_subnet_ipv6_of_miss (address : List Nat) (s : subnet_state)
    (h : cache_miss s.cache_ipv6 address) :
    (lookup_subnet_ipv6 address s).1 = lookup_scan_ipv6 address s.subnet_tree none := by
  unfold lookup_subnet_ipv6
  rw [if_neg h.1, if_neg h.2]

lemma cache_miss_of_flushed (c : family_cache) (address : List Nat)
    (h0 : c.valid0 = false) (h1 : c.valid1 = false) : cache_miss c address := by
  constructor
  · rintro ⟨hv, -⟩; rw [h0] at hv; cases hv
  · rintro ⟨hv, -⟩; rw [h1] at hv; cases hv

/-- C8 (claim): after any insert or remove on the route store, both
address-family caches are invalidated: all four validity flags are cleared, and
the next IPv4 or IPv6 lookup for any address computes a fresh scan of the
mutated tree rather than answering from a cache slot. -/
theorem subnet_mutation_flushes_cache :
    ∀ (n : node_t) (e : subnet_t) (s : subnet_state) (address : List Nat),
      ((subnet_add n e s).cache_ipv4.valid0 = false ∧
       (subnet_add n e s).cache_ipv4.valid1 = false ∧
       (subnet_add n e s).cache_ipv6.valid0 = false ∧
       (subnet_add n e s).cache_ipv6.valid1 = false ∧
       (subnet_del n e s).cache_ipv4.valid0 = false ∧
       (subnet_del n e s).cache_ipv4.valid1 = false ∧
       (subnet_del n e s).cache_ipv6.valid0 = false ∧
       (subnet_del n e s).cache_ipv6.valid1 = false) ∧
      (lookup_subnet_ipv4 address (subnet_add n e s)).1
        = lookup_scan_ipv4 address (splay_insert s.subnet_tree { e with owner := some n }) none ∧
      (lookup_subnet_ipv6 address (subnet_add n e s)).1
        = lookup_scan_ipv6 address (splay_insert s.subnet_tree { e with owner := some n }) none ∧
      (lookup_subnet_ipv4 address (subnet_del n e s)).1
        = lookup_scan_ipv4 address (splay_delete s.subnet_tree e) none ∧
      (lookup_subnet_ipv6 address (subnet_del n e s)).1
        = lookup_scan_ipv6 address (splay_delete s.subnet_tree e) none := by
  intro n e s address
  refine ⟨⟨rfl, rfl, rfl, rfl, rfl, rfl, rfl, rfl⟩, ?_, ?_, ?_, ?_⟩
  · exact lookup_subnet_ipv4_of_miss address _ (cache_miss_of_flushed _ _ rfl rfl)
  · exact lookup_subnet_ipv6_of_miss address _ (cache_miss_of_flushed _ _ rfl rfl)
  · exact lookup_subnet_ipv4_of_miss address _ (cache_miss_of_flushed _ _ rfl rfl)
  · exact lookup_subnet_ipv6_of_miss address _ (cache_miss_of_flushed _ _ rfl rfl)

/-- C9 (claim): repeating an identical IPv4 or IPv6 lookup with no intervening
mutation returns the same result both times (the second call answers from the
cache, including a cached absent result), neither call changes the tree, and the
second call does not change the state at all. -/
theorem lookup_repeat_same_result :
    ∀ (s : subnet_state) (address : List Nat),
      ((lookup_subnet_ipv4 address (lookup_subnet_ipv4 address s).2).1
          = (lookup_subnet_ipv4 address s).1 ∧
       (lookup_subnet_ipv4 address s).2.subnet_tree = s.subnet_tree ∧
       (lookup_subnet_ipv4 address (lookup_subnet_ipv4 address s).2).2
          = (lookup_subnet_ipv4 address s).2) ∧
      ((lookup_subnet_ipv6 address (lookup_subnet_ipv6 address s).2).1
          = (lookup_subnet_ipv6 address s).1 ∧
       (lookup_subnet_ipv6 address s).2.subnet_tree = s.subnet_tree ∧
       (lookup_subnet_ipv6 address (lookup_subnet_ipv6 address s).2).2
          = (lookup_subnet_ipv6 address s).2) := by
  intro s address
  constructor
  · by_cases h0 : s.cache_ipv4.valid0 = true ∧ s.cache_ipv4.address0 = address
    · simp [lookup_subnet_ipv4, h0]
    · by_cases h1 : s.cache_ipv4.valid1 = true ∧ s.cache_ipv4.address1 = address
      · simp [lookup_subnet_ipv4, h0, h1]
      · cases hs : s.cache_ipv4.slot <;>
          simp [lookup_subnet_ipv4, h0, h1, hs]
  · by_cases h0 : s.cache_ipv6.valid0 = true ∧ s.cache_ipv6.address0 = address
    · simp [lookup_subnet_ipv6, h0]
    · by_cases h1 : s.cache_ipv6.valid1 = true ∧ s.cache_ipv6.address1 = address
      · simp [lookup_subnet_ipv6, h0, h1]
      · cases hs : s.cache_ipv6.slot <;>
          simp [lookup_subnet_ipv6, h0, h1, hs]

/-! ### MAC lookup -/

/-- C4 (code bug): `lookup_subnet_mac` builds its probe from the zero
initialiser, so the probe's weight is 0; `subnet_compare_mac` treats differing
weights as inequality, so the comparator-equality search cannot find a stored
MAC entry with the (default) weight 10 even though its six address bytes equal
the queried address.  The lookup is nevertheless cache-independent: it reads
only the tree. -/
theorem lookup_subnet_mac_misses_weighted_entry :
    (macEntryW10 ∈ (mkState [macEntryW10]).subnet_tree ∧
     macEntryW10.type = SUBNET_MAC ∧
     macEntryW10.macAddress = [1, 2, 3, 4, 5, 6] ∧
     lookup_subnet_mac [1, 2, 3, 4, 5, 6] (mkState [macEntryW10]) = none) ∧
    (∀ (s s2 : subnet_state), s.subnet_tree = s2.subnet_tree →
      ∀ a, lookup_subnet_mac a s = lookup_subnet_mac a s2) := by
  refine ⟨⟨by decide, by decide, by decide, by decide⟩, ?_⟩
  intro s s2 h a
  unfold lookup_subnet_mac splay_search
  rw [h]

/-- Witness for the hypothesised conjunct of the C4 theorem, applied at two
concrete states with the same tree but different caches. -/
theorem lookup_subnet_mac_misses_weighted_entry_witness :
    lookup_subnet_mac [1, 2, 3, 4, 5, 6] (mkState [macEntryW10])
      = lookup_subnet_mac [1, 2, 3, 4, 5, 6]
          { mkState [macEntryW10] with
              cache_ipv4 := { emptyCache with valid0 := true, address0 := [9, 9, 9, 9] } } :=
  lookup_subnet_mac_misses_weighted_entry.2
    (mkState [macEntryW10]) _ rfl [1, 2, 3, 4, 5, 6]

/-! ### The matching scan: C1 and C2 -/

/-- Does `p` count as a containing IPv4 candidate for `address` in the scan? -/
def ipv4Match (address : List Nat) (p : subnet_t) : Bool :=
  p.type == SUBNET_IPV4 && maskcmp address p.ipv4Address p.prefixlength == 0

/-- Does `p` count as a containing IPv6 candidate for `address` in the scan? -/
def ipv6Match (address : List Nat) (p : subnet_t) : Bool :=
  p.type == SUBNET_IPV6 && maskcmp (ipv6Bytes address) (ipv6Bytes p.ipv6Address) p.prefixlength == 0

/-- The last element of `l` if there is one, else the accumulator — the value
the scan loop's `r` variable holds after walking `l` with no early stop. -/
def lastOr (l : List subnet_t) (r : Option subnet_t) : Option subnet_t :=
  match l.getLast? with
  | some x => some x
  | none => r

lemma lastOr_cons (p : subnet_t) (l : List subnet_t) (r : Option subnet_t) :
    lastOr (p :: l) r = lastOr l (some p) := by
  cases l with
  | nil => rfl
  | cons y ys =>
    cases h : (y :: ys).getLast? with
    | some x => simp [lastOr, List.getLast?_cons_cons, h]
    | none => exact absurd h (by simp)

lemma lastOr_none (l : List subnet_t) : lastOr l none = l.getLast? := by
  cases h : l.getLast? <;> simp [lastOr, h]

lemma lookup_scan_ipv4_no_reachable (address : List Nat) :
    ∀ (l : List subnet_t) (r : Option subnet_t),
      (∀ p ∈ l, ipv4Match address p = true → ownerReachable p = false) →
      lookup_scan_ipv4 address l r = lastOr (l.filter (ipv4Match address)) r := by
  intro l
  induction l with
  | nil => intro r h; rfl
  | cons p rest ih =>
    intro r h
    have hrest : ∀ q ∈ rest, ipv4Match address q = true → ownerReachable q = false :=
      fun q hq => h q (List.mem_cons_of_mem p hq)
    by_cases ht : p.type = SUBNET_IPV4
    · by_cases hm : maskcmp address p.ipv4Address p.prefixlength = 0
      · have hmatch : ipv4Match address p = true := by
          simp [ipv4Match, ht, hm]
        have hur : ownerReachable p = false := h p (List.mem_cons_self p rest) hmatch
        rw [List.filter_cons_of_pos hmatch, lastOr_cons]
        show lookup_scan_ipv4 address (p :: rest) r = _
        rw [lookup_scan_ipv4, if_pos ht, if_pos hm, hur]
        simp only [Bool.false_eq_true, if_false]
        exact ih (some p) hrest
      · have hmatch : ipv4Match address p = false := by
          simp [ipv4Match, hm]
        rw [List.filter_cons_of_neg (by simp [hmatch])]
        show lookup_scan_ipv4 address (p :: rest) r = _
        rw [lookup_scan_ipv4, if_pos ht, if_neg hm]
        exact ih r hrest
    · have hmatch : ipv4Match address p = false := by
        simp [ipv4Match, ht]
      rw [List.filter_cons_of_neg (by simp [hmatch])]
      show lookup_scan_ipv4 address (p :: rest) r = _
      rw [lookup_scan_ipv4, if_neg ht]
      exact ih r hrest

lemma lookup_scan_ipv6_no_reachable (address : List Nat) :
    ∀ (l : List subnet_t) (r : Option subnet_t),
      (∀ p ∈ l, ipv6Match address p = true → ownerReachable p = false) →
      lookup_scan_ipv6 address l r = lastOr (l.filter (ipv6Match address)) r := by
  intro l
  induction l with
  | nil => intro r h; rfl
  | cons p rest ih =>
    intro r h
    have hrest : ∀ q ∈ rest, ipv6Match address q = true → ownerReachable q = false :=
      fun q hq => h q (List.mem_cons_of_mem p hq)
    by_cases ht : p.type = SUBNET_IPV6
    · by_cases hm : maskcmp (ipv6Bytes address) (ipv6Bytes p.ipv6Address) p.prefixlength = 0
      · have hmatch : ipv6Match address p = true := by
          simp [ipv6Match, ht, hm]
        have hur : ownerReachable p = false := h p (List.mem_cons_self p rest) hmatch
        rw [List.filter_cons_of_pos hmatch, lastOr_cons]
        show lookup_scan_ipv6 address (p :: rest) r = _
        rw [lookup_scan_ipv6, if_pos ht, if_pos hm, hur]
        simp only [Bool.false_eq_true, if_false]
        exact ih (some p) hrest
      · have hmatch : ipv6Match address p = false := by
          simp [ipv6Match, hm]
        rw [List.filter_cons_of_neg (by simp [hmatch])]
        show lookup_scan_ipv6 address (p :: rest) r = _
        rw [lookup_scan_ipv6, if_pos ht, if_neg hm]
        exact ih r hrest
    · have hmatch : ipv6Match address p = false := by
        simp [ipv6Match, ht]
      rw [List.filter_cons_of_neg (by simp [hmatch])]
      show lookup_scan_ipv6 address (p :: rest) r = _
      rw [lookup_scan_ipv6, if_neg ht]
      exact ih r hrest

lemma lookup_scan_ipv4_first_reachable (address : List Nat) :
    ∀ (l1 : List subnet_t) (p : subnet_t) (l2 : List subnet_t) (r : Option subnet_t),
      (∀ q ∈ l1, ¬(ipv4Match address q = true ∧ ownerReachable q = true)) →
      ipv4Match address p = true → ownerReachable p = true →
      lookup_scan_ipv4 address (l1 ++ p :: l2) r = some p := by
  intro l1
  induction l1 with
  | nil =>
    intro p l2 r hnone hp hr
    have ht : p.type = SUBNET_IPV4 := by
      have := hp; simp [ipv4Match] at this; exact this.1
    have hm : maskcmp address p.ipv4Address p.prefixlength = 0 := by
      have := hp; simp [ipv4Match] at this; exact this.2
    show lookup_scan_ipv4 address (p :: l2) r = some p
    rw [lookup_scan_ipv4, if_pos ht, if_pos hm, hr]
    simp
  | cons q l1' ih =>
    intro p l2 r hnone hp hr
    have hq : ¬(ipv4Match address q = true ∧ ownerReachable q = true) :=
      hnone q (List.mem_cons_self q l1')
    have hrest : ∀ x ∈ l1', ¬(ipv4Match address x = true ∧ ownerReachable x = true) :=
      fun x hx => hnone x (List.mem_cons_of_mem q hx)
    show lookup_scan_ipv4 address (q :: (l1' ++ p :: l2)) r = some p
    by_cases ht : q.type = SUBNET_IPV4
    · by_cases hm : maskcmp address q.ipv4Address q.prefixlength = 0
      · have hqmatch : ipv4Match address q = true := by simp [ipv4Match, ht, hm]
        have hqur : ownerReachable q = false := by
          cases hqr : ownerReachable q with
          | false => rfl
          | true => exact absurd ⟨hqmatch, hqr⟩ hq
        rw [lookup_scan_ipv4, if_pos ht, if_pos hm, hqur]
        simp only [Bool.false_eq_true, if_false]
        exact ih p l2 (some q) hrest hp hr
      · rw [lookup_scan_ipv4, if_pos ht, if_neg hm]
        exact ih p l2 r hrest hp hr
    · rw [lookup_scan_ipv4, if_neg ht]
      exact ih p l2 r hrest hp hr

lemma lookup_scan_ipv6_first_reachable (address : List Nat) :
    ∀ (l1 : List subnet_t) (p : subnet_t) (l2 : List subnet_t) (r : Option subnet_t),
      (∀ q ∈ l1, ¬(ipv6Match address q = true ∧ ownerReachable q = true)) →
      ipv6Match address p = true → ownerReachable p = true →
      lookup_scan_ipv6 address (l1 ++ p :: l2) r = some p := by
  intro l1
  induction l1 with
  | nil =>
    intro p l2 r hnone hp hr
    have ht : p.type = SUBNET_IPV6 := by
      have := hp; simp [ipv6Match] at this; exact this.1
    have hm : maskcmp (ipv6Bytes address) (ipv6Bytes p.ipv6Address) p.prefixlength = 0 := by
      have := hp; simp [ipv6Match] at this; exact this.2
    show lookup_scan_ipv6 address (p :: l2) r = some p
    rw [lookup_scan_ipv6, if_pos ht, if_pos hm, hr]
    simp
  | cons q l1' ih =>
    intro p l2 r hnone hp hr
    have hq : ¬(ipv6Match address q = true ∧ ownerReachable q = true) :=
      hnone q (List.mem_cons_self q l1')
    have hrest : ∀ x ∈ l1', ¬(ipv6Match address x = true ∧ ownerReachable x = true) :=
      fun x hx => hnone x (List.mem_cons_of_mem q hx)
    show lookup_scan_ipv6 address (q :: (l1' ++ p :: l2)) r = some p
    by_cases ht : q.type = SUBNET_IPV6
    · by_cases hm : maskcmp (ipv6Bytes address) (ipv6Bytes q.ipv6Address) q.prefixlength = 0
      · have hqmatch : ipv6Match address q = true := by simp [ipv6Match, ht, hm]
        have hqur : ownerReachable q = false := by
          cases hqr : ownerReachable q with
          | false => rfl
          | true => exact absurd ⟨hqmatch, hqr⟩ hq
        rw [lookup_scan_ipv6, if_pos ht, if_pos hm, hqur]
        simp only [Bool.false_eq_true, if_false]
        exact ih p l2 (some q) hrest hp hr
      · rw [lookup_scan_ipv6, if_pos ht, if_neg hm]
        exact ih p l2 r hrest hp hr
    · rw [lookup_scan_ipv6, if_neg ht]
      exact ih p l2 r hrest hp hr

/-- C2 (claim): in a scanning IPv4/IPv6 lookup, the first containing candidate
(in store order, longest prefixes first) whose owner is currently reachable is
adopted immediately as the final result — so a reachable less-specific match
beats an unreachable more-specific one.  In particular, with `10.0.0.0/24`
(owner B, unreachable) before `10.0.0.0/16` (owner A, reachable), both
containing `10.0.0.5`, the lookup returns the /16 entry. -/
theorem lookup_first_reachable_wins :
    (∀ (s : subnet_state) (address : List Nat) (l1 : List subnet_t) (p : subnet_t)
        (l2 : List subnet_t),
        cache_miss s.cache_ipv4 address →
        s.subnet_tree = l1 ++ p :: l2 →
        (∀ q ∈ l1, ¬(ipv4Match address q = true ∧ ownerReachable q = true)) →
        ipv4Match address p = true → ownerReachable p = true →
        (lookup_subnet_ipv4 address s).1 = some p) ∧
    (∀ (s : subnet_state) (address : List Nat) (l1 : List subnet_t) (p : subnet_t)
        (l2 : List subnet_t),
        cache_miss s.cache_ipv6 address →
        s.subnet_tree = l1 ++ p :: l2 →
        (∀ q ∈ l1, ¬(ipv6Match address q = true ∧ ownerReachable q = true)) →
        ipv6Match address p = true → ownerReachable p = true →
        (lookup_subnet_ipv6 address s).1 = some p) ∧
    (subnet_compare subnetB24 subnetA16 < 0 ∧
     ipv4Match [10, 0, 0, 5] subnetB24 = true ∧ ownerReachable subnetB24 = false ∧
     ipv4Match [10, 0, 0, 5] subnetA16 = true ∧ ownerReachable subnetA16 = true ∧
     (lookup_subnet_ipv4 [10, 0, 0, 5] (mkState [subnetB24, subnetA16])).1 = some subnetA16) := by
  refine ⟨?_, ?_, by decide⟩
  · intro s address l1 p l2 hmiss htree hnone hp hr
    rw [lookup_subnet_ipv4_of_miss address s hmiss, htree]
    exact lookup_scan_ipv4_first_reachable address l1 p l2 none hnone hp hr
  · intro s address l1 p l2 hmiss htree hnone hp hr
    rw [lookup_subnet_ipv6_of_miss address s hmiss, htree]
    exact lookup_scan_ipv6_first_reachable address l1 p l2 none hnone hp hr

/-- Witness for the C2 theorem: its first conjunct applied to the concrete
two-entry store of the claim's example. -/
theorem lookup_first_reachable_wins_witness :
    (lookup_subnet_ipv4 [10, 0, 0, 5] (mkState [subnetB24, subnetA16])).1 = some subnetA16 :=
  lookup_first_reachable_wins.1 (mkState [subnetB24, subnetA16]) [10, 0, 0, 5]
    [subnetB24] subnetA16 [] (by decide) rfl (by decide) (by decide) (by decide)

/-- C1 (counterexample): with the sorted store `[10.0.0.0/24 (owner B,
unreachable), 10.0.0.0/8 (owner B, unreachable)]` and query `10.0.0.5`, the scan
completes without finding a reachable candidate and both entries contain the
address, yet the lookup returns the /8 entry — not the longest-prefix
containing candidate, which is the distinct /24 entry. -/
theorem lookup_unreachable_longest_refuted :
    ipv4Match [10, 0, 0, 5] subnetB24 = true ∧
    ipv4Match [10, 0, 0, 5] subnetB8 = true ∧
    ownerReachable subnetB24 = false ∧
    ownerReachable subnetB8 = false ∧
    subnet_compare subnetB24 subnetB8 < 0 ∧
    subnetB24.prefixlength = 24 ∧
    subnetB8.prefixlength = 8 ∧
    (lookup_subnet_ipv4 [10, 0, 0, 5] (mkState [subnetB24, subnetB8])).1 = some subnetB8 ∧
    subnetB8 ≠ subnetB24 := by
  decide

/-- C1 (amended): for every IPv4 (resp. IPv6) lookup in which the ordered scan
of the global store completes without finding any containing candidate whose
owner is reachable, the lookup returns the LAST containing candidate in scan
order — with the longest-first store ordering, the least specific match — or
absent if no candidate contained the queried address. -/
theorem lookup_no_reachable_returns_last :
    (∀ (s : subnet_state) (address : List Nat),
        cache_miss s.cache_ipv4 address →
        (∀ p ∈ s.subnet_tree, ipv4Match address p = true → ownerReachable p = false) →
        (lookup_subnet_ipv4 address s).1
          = (s.subnet_tree.filter (ipv4Match address)).getLast?) ∧
    (∀ (s : subnet_state) (address : List Nat),
        cache_miss s.cache_ipv6 address →
        (∀ p ∈ s.subnet_tree, ipv6Match address p = true → ownerReachable p = false) →
        (lookup_subnet_ipv6 address s).1
          = (s.subnet_tree.filter (ipv6Match address)).getLast?) := by
  constructor
  · intro s address hmiss hur
    rw [lookup_subnet_ipv4_of_miss address s hmiss,
      lookup_scan_ipv4_no_reachable address s.subnet_tree none hur, lastOr_none]
  · intro s address hmiss hur
    rw [lookup_subnet_ipv6_of_miss address s hmiss,
      lookup_scan_ipv6_no_reachable address s.subnet_tree none hur, lastOr_none]

/-- Witness for the amended C1 theorem: applied to the concrete all-unreachable
store of the counterexample. -/
theorem lookup_no_reachable_returns_last_witness :
    (lookup_subnet_ipv4 [10, 0, 0, 5] (mkState [subnetB24, subnetB8])).1
      = ((mkState [subnetB24, subnetB8]).subnet_tree.filter (ipv4Match [10, 0, 0, 5])).getLast? :=
  lookup_no_reachable_returns_last.1 (mkState [subnetB24, subnetB8]) [10, 0, 0, 5]
    (by decide) (by decide)

/-! ### Parse failure behaviour: C3 -/

lemma write_ipv4_octets_fail (i : Nat) (xs : List Nat) :
    ∀ (s0 : subnet_t), (∃ x ∈ xs, 255 < x) →
      (write_ipv4_octets s0 i xs).1 = false ∧
      (write_ipv4_octets s0 i xs).2.type = s0.type ∧
      (write_ipv4_octets s0 i xs).2.prefixlength = s0.prefixlength ∧
      (write_ipv4_octets s0 i xs).2.weight = s0.weight := by
  induction xs generalizing i with
  | nil => rintro s0 ⟨x, hx, -⟩; cases hx
  | cons x rest ih =>
    rintro s0 ⟨y, hy, hybig⟩
    by_cases hx : 255 < x
    · rw [write_ipv4_octets, if_pos hx]
      exact ⟨rfl, rfl, rfl, rfl⟩
    · rw [write_ipv4_octets, if_neg hx]
      have hyrest : y ∈ rest := by
        rcases List.mem_cons.1 hy with h | h
        · exact (hx (h ▸ hybig)).elim
        · exact h
      exact ih (i + 1) _ ⟨y, hyrest, hybig⟩

/-- C3 (counterexample): parsing `300.0.0.0/8` fails (the first octet exceeds
255) but leaves the target partially written: kind, prefix length and weight
have already been stored when the octet check rejects the input. -/
theorem str2net_partial_mutation :
    (str2net zeroSubnet ("300.0.0.0/8".data)).1 = false ∧
    (str2net zeroSubnet ("300.0.0.0/8".data)).2 ≠ zeroSubnet ∧
    (str2net zeroSubnet ("300.0.0.0/8".data)).2
      = { zeroSubnet with type := SUBNET_IPV4, prefixlength := 8, weight := 10 } := by
  decide

/-- C3 (amended): every malformed or out-of-range input is rejected with a
`false` result, and the failure is clean — the target left entirely unmodified —
for an out-of-range prefix and for input matching no format; but when an IPv4
octet exceeds 255 (explicit- or implicit-prefix form), the failure happens only
after the kind, prefix length, weight (and any octets before the offending one)
have been written into the target. -/
theorem str2net_failure_behaviour :
    (∀ (s : subnet_t) (str : List Char) (o : Nat × Nat × Nat × Nat) (l : Int) (w : Option Int),
        sscanf_ipv4_cidr str = some (o, l, w) → (l < 0 ∨ 32 < l) →
        str2net s str = (false, s)) ∧
    (∀ (s : subnet_t) (str : List Char) (xs : List Nat) (l : Int) (w : Option Int),
        sscanf_ipv4_cidr str = none → sscanf_ipv6_cidr str = some (xs, l, w) →
        (l < 0 ∨ 128 < l) →
        str2net s str = (false, s)) ∧
    (∀ (s : subnet_t) (str : List Char),
        sscanf_ipv4_cidr str = none → sscanf_ipv6_cidr str = none →
        sscanf_ipv4_host str = none → sscanf_ipv6_host str = none → sscanf_mac str = none →
        str2net s str = (false, s)) ∧
    (∀ (s : subnet_t) (str : List Char) (x0 x1 x2 x3 : Nat) (l : Int) (w : Option Int),
        sscanf_ipv4_cidr str = some ((x0, x1, x2, x3), l, w) → 0 ≤ l → l ≤ 32 →
        (255 < x0 ∨ 255 < x1 ∨ 255 < x2 ∨ 255 < x3) →
        (str2net s str).1 = false ∧
        (str2net s str).2.type = SUBNET_IPV4 ∧
        (str2net s str).2.prefixlength = l ∧
        (str2net s str).2.weight = w.getD 10) ∧
    (∀ (s : subnet_t) (str : List Char) (x0 x1 x2 x3 : Nat) (w : Option Int),
        sscanf_ipv4_cidr str = none → sscanf_ipv6_cidr str = none →
        sscanf_ipv4_host str = some ((x0, x1, x2, x3), w) →
        (255 < x0 ∨ 255 < x1 ∨ 255 < x2 ∨ 255 < x3) →
        (str2net s str).1 = false ∧
        (str2net s str).2.type = SUBNET_IPV4 ∧
        (str2net s str).2.prefixlength = 32 ∧
        (str2net s str).2.weight = w.getD 10) := by
  refine ⟨?_, ?_, ?_, ?_, ?_⟩
  · intro s str o l w h hrange
    simp only [str2net, h]
    rw [if_pos hrange]
  · intro s str xs l w h4 h6 hrange
    simp only [str2net, h4, h6]
    rw [if_pos hrange]
  · intro s str h1 h2 h3 h4 h5
    simp only [str2net, h1, h2, h3, h4, h5]
  · intro s str x0 x1 x2 x3 l w h hl0 hl32 hbig
    simp only [str2net, h]
    rw [if_neg (by omega)]
    have hex : ∃ x ∈ [x0, x1, x2, x3], 255 < x := by
      rcases hbig with hb | hb | hb | hb
      · exact ⟨x0, by simp, hb⟩
      · exact ⟨x1, by simp, hb⟩
      · exact ⟨x2, by simp, hb⟩
      · exact ⟨x3, by simp, hb⟩
    exact write_ipv4_octets_fail 0 [x0, x1, x2, x3] _ hex
  · intro s str x0 x1 x2 x3 w h1 h2 h3 hbig
    simp only [str2net, h1, h2, h3]
    have hex : ∃ x ∈ [x0, x1, x2, x3], 255 < x := by
      rcases hbig with hb | hb | hb | hb
      · exact ⟨x0, by simp, hb⟩
      · exact ⟨x1, by simp, hb⟩
      · exact ⟨x2, by simp, hb⟩
      · exact ⟨x3, by simp, hb⟩
    exact write_ipv4_octets_fail 0 [x0, x1, x2, x3] _ hex

/-- Witness for the amended C3 theorem: the clean prefix-range failure on
`1.2.3.4/33` and the partially-writing octet failure on `300.0.0.0/8`. -/
theorem str2net_failure_behaviour_witness :
    str2net zeroSubnet ("1.2.3.4/33".data) = (false, zeroSubnet) ∧
    ((str2net zeroSubnet ("300.0.0.0/8".data)).1 = false ∧
     (str2net zeroSubnet ("300.0.0.0/8".data)).2.type = SUBNET_IPV4 ∧
     (str2net zeroSubnet ("300.0.0.0/8".data)).2.prefixlength = (8 : Int) ∧
     (str2net zeroSubnet ("300.0.0.0/8".data)).2.weight = (Option.getD none 10 : Int)) :=
  ⟨str2net_failure_behaviour.1 zeroSubnet ("1.2.3.4/33".data) (1, 2, 3, 4) 33 none
      (by decide) (by decide),
   str2net_failure_behaviour.2.2.2.1 zeroSubnet ("300.0.0.0/8".data) 300 0 0 0 8 none
      (by decide) (by decide) (by decide) (by decide)⟩

/-! ### The ordering policy as a total order: C7 -/

/-- Strict lexicographic order on byte lists (the order `memcmp`/`strcmp` sign
conventions induce; a proper front part sorts first). -/
def listLt : List Nat → List Nat → Prop
  | _, [] => False
  | [], _ :: _ => True
  | a :: as, b :: bs => a < b ∨ (a = b ∧ listLt as bs)

instance : ∀ (a b : List Nat), Decidable (listLt a b)
  | [], [] => isFalse (fun h => h)
  | _ :: _, [] => isFalse (fun h => h)
  | [], _ :: _ => isTrue trivial
  | a :: as, b :: bs =>
    have : Decidable (listLt as bs) := instDecidableListLt as bs
    inferInstanceAs (Decidable (_ ∨ _))

lemma listLt_trans : ∀ (a b c : List Nat), listLt a b → listLt b c → listLt a c := by
  intro a
  induction a with
  | nil =>
    intro b c hab hbc
    cases b with
    | nil => cases hab
    | cons y ys =>
      cases c with
      | nil => cases hbc
      | cons z zs => trivial
  | cons x xs ih =>
    intro b c hab hbc
    cases b with
    | nil => cases hab
    | cons y ys =>
      cases c with
      | nil => cases hbc
      | cons z zs =>
        rcases hab with h1 | ⟨he1, h1⟩ <;> rcases hbc with h2 | ⟨he2, h2⟩
        · exact Or.inl (Nat.lt_trans h1 h2)
        · exact Or.inl (he2 ▸ h1)
        · exact Or.inl (he1 ▸ h2)
        · exact Or.inr ⟨he1.trans he2, ih ys zs h1 h2⟩

lemma memcmp_eq_zero_iff : ∀ (a b : List Nat), a.length = b.length →
    (memcmpBytes a b = 0 ↔ a = b) := by
  intro a
  induction a with
  | nil =>
    intro b h
    cases b with
    | nil => simp [memcmpBytes]
    | cons y ys => cases h
  | cons x xs ih =>
    intro b h
    cases b with
    | nil => cases h
    | cons y ys =>
      by_cases hxy : x = y
      · rw [memcmpBytes, if_pos hxy, ih ys (by simpa using h)]
        simp [hxy]
      · rw [memcmpBytes, if_neg hxy]
        constructor
        · intro hz
          exact absurd (by omega : x = y) hxy
        · intro hz
          exact absurd (List.cons.injEq .. ▸ hz).1 hxy

lemma memcmp_neg_iff : ∀ (a b : List Nat), a.length = b.length →
    (memcmpBytes a b < 0 ↔ listLt a b) := by
  intro a
  induction a with
  | nil =>
    intro b h
    cases b with
    | nil => simp [memcmpBytes, listLt]
    | cons y ys => cases h
  | cons x xs ih =>
    intro b h
    cases b with
    | nil => cases h
    | cons y ys =>
      by_cases hxy : x = y
      · rw [memcmpBytes, if_pos hxy]
        rw [ih ys (by simpa using h)]
        show listLt xs ys ↔ _
        show _ ↔ (x < y ∨ (x = y ∧ listLt xs ys))
        constructor
        · intro hlt; exact Or.inr ⟨hxy, hlt⟩
        · rintro (hlt | ⟨-, hlt⟩)
          · omega
          · exact hlt
      · rw [memcmpBytes, if_neg hxy]
        show _ ↔ (x < y ∨ (x = y ∧ listLt xs ys))
        constructor
        · intro hlt; exact Or.inl (by omega)
        · rintro (hlt | ⟨he, -⟩)
          · omega
          · exact absurd he hxy

lemma strcmp_eq_zero_iff : ∀ (a b : List Nat), 0 ∉ a → 0 ∉ b →
    (strcmpBytes a b = 0 ↔ a = b) := by
  intro a
  induction a with
  | nil =>
    intro b ha hb
    cases b with
    | nil => simp [strcmpBytes]
    | cons y ys =>
      rw [strcmpBytes]
      have hy : y ≠ 0 := fun h => hb (h ▸ List.mem_cons_self y ys)
      constructor
      · intro hz; exact absurd (by omega : y = 0) hy
      · intro hz; cases hz
  | cons x xs ih =>
    intro b ha hb
    cases b with
    | nil =>
      rw [strcmpBytes]
      have hx : x ≠ 0 := fun h => ha (h ▸ List.mem_cons_self x xs)
      constructor
      · intro hz; exact absurd (by omega : x = 0) hx
      · intro hz; cases hz
    | cons y ys =>
      by_cases hxy : x = y
      · rw [strcmpBytes, if_pos hxy,
          ih ys (fun h => ha (List.mem_cons_of_mem x h)) (fun h => hb (List.mem_cons_of_mem y h))]
        simp [hxy]
      · rw [strcmpBytes, if_neg hxy]
        constructor
        · intro hz; exact absurd (by omega : x = y) hxy
        · intro hz
          exact absurd (List.cons.injEq .. ▸ hz).1 hxy

lemma strcmp_neg_iff : ∀ (a b : List Nat), 0 ∉ b →
    (strcmpBytes a b < 0 ↔ listLt a b) := by
  intro a
  induction a with
  | nil =>
    intro b hb
    cases b with
    | nil => simp [strcmpBytes, listLt]
    | cons y ys =>
      rw [strcmpBytes]
      have hy : y ≠ 0 := fun h => hb (h ▸ List.mem_cons_self y ys)
      show -(y : Int) < 0 ↔ True
      constructor
      · intro hz; trivial
      · intro hz; omega
  | cons x xs ih =>
    intro b hb
    cases b with
    | nil =>
      rw [strcmpBytes]
      show (x : Int) < 0 ↔ False
      constructor
      · intro hz; omega
      · intro hz; cases hz
    | cons y ys =>
      by_cases hxy : x = y
      · rw [strcmpBytes, if_pos hxy, ih ys (fun h => hb (List.mem_cons_of_mem y h))]
        show listLt xs ys ↔ (x < y ∨ (x = y ∧ listLt xs ys))
        constructor
        · intro hlt; exact Or.inr ⟨hxy, hlt⟩
        · rintro (hlt | ⟨-, hlt⟩)
          · omega
          · exact hlt
      · rw [strcmpBytes, if_neg hxy]
        show _ ↔ (x < y ∨ (x = y ∧ listLt xs ys))
        constructor
        · intro hlt; exact Or.inl (by omega)
        · rintro (hlt | ⟨he, -⟩)
          · omega
          · exact absurd he hxy

/-- Lexicographic comparison of ordering keys, first component DESCENDING
(longer prefixes sort first), then address bytes, then weight ascending, then
owner name — the ordering the spec's §4.2 describes. -/
def keyLt : (Int × List Nat × Int × List Nat) → (Int × List Nat × Int × List Nat) → Prop
  | (p1, a1, w1, n1), (p2, a2, w2, n2) =>
    p2 < p1 ∨ (p1 = p2 ∧ (listLt a1 a2 ∨ (a1 = a2 ∧ (w1 < w2 ∨ (w1 = w2 ∧ listLt n1 n2)))))

/-- The ordering key of an entry: prefix length (irrelevant and fixed at 0 for
MAC), the active variant's address bytes as `memcmp` sees them (for IPv6 the
sixteen in-memory network-order bytes), weight, owner name. -/
def subnetKey (a : subnet_t) : Int × List Nat × Int × List Nat :=
  if a.type = SUBNET_MAC then (0, a.macAddress, a.weight, ownerName a.owner)
  else if a.type = SUBNET_IPV4 then (a.prefixlength, a.ipv4Address, a.weight, ownerName a.owner)
  else (a.prefixlength, ipv6Bytes a.ipv6Address, a.weight, ownerName a.owner)

/-- The strict order of the spec's Ordering Policy, written from its §4.2
wording: longest prefix first, then address bytes, then weight ascending, then
owner name (refinement-side definition, to be compared with `subnet_compare`). -/
def orderingPolicyLt (a b : subnet_t) : Prop :=
  keyLt (subnetKey a) (subnetKey b)

lemma keyLt_trans (k1 k2 k3 : Int × List Nat × Int × List Nat) :
    keyLt k1 k2 → keyLt k2 k3 → keyLt k1 k3 := by
  obtain ⟨p1, a1, w1, n1⟩ := k1
  obtain ⟨p2, a2, w2, n2⟩ := k2
  obtain ⟨p3, a3, w3, n3⟩ := k3
  intro h12 h23
  rcases h12 with h | ⟨hp, h12⟩
  · rcases h23 with h2 | ⟨hp2, -⟩
    · exact Or.inl (by omega)
    · exact Or.inl (by omega)
  · rcases h23 with h2 | ⟨hp2, h23⟩
    · exact Or.inl (by omega)
    · refine Or.inr ⟨by omega, ?_⟩
      rcases h12 with h | ⟨ha, h12⟩
      · rcases h23 with h2 | ⟨ha2, -⟩
        · exact Or.inl (listLt_trans a1 a2 a3 h h2)
        · exact Or.inl (ha2 ▸ h)
      · rcases h23 with h2 | ⟨ha2, h23⟩
        · exact Or.inl (ha ▸ h2)
        · refine Or.inr ⟨ha.trans ha2, ?_⟩
          rcases h12 with h | ⟨hw, h12⟩
          · rcases h23 with h2 | ⟨hw2, -⟩
            · exact Or.inl (by omega)
            · exact Or.inl (by omega)
          · rcases h23 with h2 | ⟨hw2, h23⟩
            · exact Or.inl (by omega)
            · exact Or.inr ⟨by omega, listLt_trans n1 n2 n3 h12 h23⟩

/-- A well-formed stored entry: a known kind, the active addresses at their C
array sizes, and a present owner with a NUL-free name. -/
def wf_subnet (a : subnet_t) : Prop :=
  (a.type = SUBNET_MAC ∨ a.type = SUBNET_IPV4 ∨ a.type = SUBNET_IPV6) ∧
  a.macAddress.length = 6 ∧ a.ipv4Address.length = 4 ∧ a.ipv6Address.length = 8 ∧
  ∃ n, a.owner = some n ∧ 0 ∉ n.name

lemma chain_lt_iff (r1 r2 : Int) (P1lt P1eq P2 : Prop)
    (h1lt : r1 < 0 ↔ P1lt) (h1eq : r1 = 0 ↔ P1eq) (h2 : r2 < 0 ↔ P2) :
    ((if r1 ≠ 0 then r1 else r2) < 0 ↔ (P1lt ∨ (P1eq ∧ P2))) := by
  by_cases h : r1 ≠ 0
  · rw [if_pos h]
    constructor
    · intro hlt; exact Or.inl (h1lt.1 hlt)
    · rintro (hp | ⟨hpeq, -⟩)
      · exact h1lt.2 hp
      · exact absurd (h1eq.2 hpeq) h
  · rw [if_neg h]
    push_neg at h
    constructor
    · intro hlt; exact Or.inr ⟨h1eq.1 h, h2.1 hlt⟩
    · rintro (hp | ⟨-, hp2⟩)
      · have := h1lt.2 hp; omega
      · exact h2.2 hp2

lemma chain_eq_iff (r1 r2 : Int) (P1eq P2 : Prop)
    (h1eq : r1 = 0 ↔ P1eq) (h2 : r2 = 0 ↔ P2) :
    ((if r1 ≠ 0 then r1 else r2) = 0 ↔ (P1eq ∧ P2)) := by
  by_cases h : r1 ≠ 0
  · rw [if_pos h]
    constructor
    · intro hz; exact absurd hz h
    · rintro ⟨hpeq, -⟩; exact absurd (h1eq.2 hpeq) h
  · rw [if_neg h]
    push_neg at h
    constructor
    · intro hz; exact ⟨h1eq.1 h, h2.1 hz⟩
    · rintro ⟨-, hp2⟩; exact h2.2 hp2

lemma owner_chain_lt_iff (w1 w2 : Int) (o1 o2 : Option node_t) (n1 n2 : node_t)
    (ho1 : o1 = some n1) (ho2 : o2 = some n2) (hnz2 : 0 ∉ n2.name) :
    ((if w1 - w2 ≠ 0 ∨ o1 = none ∨ o2 = none then w1 - w2
      else strcmpBytes (ownerName o1) (ownerName o2)) < 0
     ↔ (w1 < w2 ∨ (w1 = w2 ∧ listLt n1.name n2.name))) := by
  subst ho1 ho2
  by_cases h : w1 - w2 ≠ 0
  · rw [if_pos (Or.inl h)]
    constructor
    · intro hlt; exact Or.inl (by omega)
    · rintro (hp | ⟨hpeq, -⟩)
      · omega
      · exact absurd (by omega : w1 - w2 = 0) h
  · rw [if_neg (by
      push_neg
      refine ⟨by omega, ?_, ?_⟩ <;> exact Option.some_ne_none _)]
    show strcmpBytes n1.name n2.name < 0 ↔ _
    rw [strcmp_neg_iff n1.name n2.name hnz2]
    constructor
    · intro hlt; exact Or.inr ⟨by omega, hlt⟩
    · rintro (hp | ⟨-, hp⟩)
      · omega
      · exact hp

lemma owner_chain_eq_iff (w1 w2 : Int) (o1 o2 : Option node_t) (n1 n2 : node_t)
    (ho1 : o1 = some n1) (ho2 : o2 = some n2)
    (hnz1 : 0 ∉ n1.name) (hnz2 : 0 ∉ n2.name) :
    ((if w1 - w2 ≠ 0 ∨ o1 = none ∨ o2 = none then w1 - w2
      else strcmpBytes (ownerName o1) (ownerName o2)) = 0
     ↔ (w1 = w2 ∧ n1.name = n2.name)) := by
  subst ho1 ho2
  by_cases h : w1 - w2 ≠ 0
  · rw [if_pos (Or.inl h)]
    constructor
    · intro hz; exact absurd hz h
    · rintro ⟨hpeq, -⟩; exact absurd (by omega : w1 - w2 = 0) h
  · rw [if_neg (by
      push_neg
      refine ⟨by omega, ?_, ?_⟩ <;> exact Option.some_ne_none _)]
    show strcmpBytes n1.name n2.name = 0 ↔ _
    rw [strcmp_eq_zero_iff n1.name n2.name hnz1 hnz2]
    constructor
    · intro heq; exact ⟨by omega, heq⟩
    · rintro ⟨-, hp⟩; exact hp

lemma compare_mac_lt_iff (a b : subnet_t)
    (hla : a.macAddress.length = 6) (hlb : b.macAddress.length = 6)
    (na nb : node_t) (hoa : a.owner = some na) (hob : b.owner = some nb)
    (hnzb : 0 ∉ nb.name) :
    (subnet_compare_mac a b < 0 ↔
      keyLt (0, a.macAddress, a.weight, na.name) (0, b.macAddress, b.weight, nb.name)) := by
  show subnet_compare_mac a b < 0 ↔
    ((0 : Int) < 0 ∨ ((0 : Int) = 0 ∧ (listLt a.macAddress b.macAddress ∨
      (a.macAddress = b.macAddress ∧
        (a.weight < b.weight ∨ (a.weight = b.weight ∧ listLt na.name nb.name))))))
  unfold subnet_compare_mac
  rw [chain_lt_iff _ _ _ _ _
    (memcmp_neg_iff _ _ (by rw [hla, hlb]))
    (memcmp_eq_zero_iff _ _ (by rw [hla, hlb]))
    (owner_chain_lt_iff a.weight b.weight a.owner b.owner na nb hoa hob hnzb)]
  constructor
  · intro h; exact Or.inr ⟨rfl, h⟩
  · rintro (h | ⟨-, h⟩)
    · omega
    · exact h

lemma compare_mac_eq_iff (a b : subnet_t)
    (hla : a.macAddress.length = 6) (hlb : b.macAddress.length = 6)
    (na nb : node_t) (hoa : a.owner = some na) (hob : b.owner = some nb)
    (hnza : 0 ∉ na.name) (hnzb : 0 ∉ nb.name) :
    (subnet_compare_mac a b = 0 ↔
      (a.macAddress = b.macAddress ∧ a.weight = b.weight ∧ na.name = nb.name)) := by
  unfold subnet_compare_mac
  rw [chain_eq_iff _ _ _ _
    (memcmp_eq_zero_iff _ _ (by rw [hla, hlb]))
    (owner_chain_eq_iff a.weight b.weight a.owner b.owner na nb hoa hob hnza hnzb)]

lemma compare_ipv4_lt_iff (a b : subnet_t)
    (hla : a.ipv4Address.length = 4) (hlb : b.ipv4Address.length = 4)
    (na nb : node_t) (hoa : a.owner = some na) (hob : b.owner = some nb)
    (hnzb : 0 ∉ nb.name) :
    (subnet_compare_ipv4 a b < 0 ↔
      keyLt (a.prefixlength, a.ipv4Address, a.weight, na.name)
        (b.prefixlength, b.ipv4Address, b.weight, nb.name)) := by
  show subnet_compare_ipv4 a b < 0 ↔
    (b.prefixlength < a.prefixlength ∨ (a.prefixlength = b.prefixlength ∧
      (listLt a.ipv4Address b.ipv4Address ∨ (a.ipv4Address = b.ipv4Address ∧
        (a.weight < b.weight ∨ (a.weight = b.weight ∧ listLt na.name nb.name))))))
  unfold subnet_compare_ipv4
  rw [chain_lt_iff _ _ _ _ _
    (by omega : b.prefixlength - a.prefixlength < 0 ↔ b.prefixlength < a.prefixlength)
    (by omega : b.prefixlength - a.prefixlength = 0 ↔ a.prefixlength = b.prefixlength)
    (chain_lt_iff _ _ _ _ _
      (memcmp_neg_iff _ _ (by rw [hla, hlb]))
      (memcmp_eq_zero_iff _ _ (by rw [hla, hlb]))
      (owner_chain_lt_iff a.weight b.weight a.owner b.owner na nb hoa hob hnzb))]

lemma compare_ipv4_eq_iff (a b : subnet_t)
    (hla : a.ipv4Address.length = 4) (hlb : b.ipv4Address.length = 4)
    (na nb : node_t) (hoa : a.owner = some na) (hob : b.owner = some nb)
    (hnza : 0 ∉ na.name) (hnzb : 0 ∉ nb.name) :
    (subnet_compare_ipv4 a b = 0 ↔
      (a.prefixlength = b.prefixlength ∧ a.ipv4Address = b.ipv4Address ∧
       a.weight = b.weight ∧ na.name = nb.name)) := by
  unfold subnet_compare_ipv4
  rw [chain_eq_iff _ _ _ _
    (by omega : b.prefixlength - a.prefixlength = 0 ↔ a.prefixlength = b.prefixlength)
    (chain_eq_iff _ _ _ _
      (memcmp_eq_zero_iff _ _ (by rw [hla, hlb]))
      (owner_chain_eq_iff a.weight b.weight a.owner b.owner na nb hoa hob hnza hnzb))]

lemma ipv6Bytes_length (gs : List Nat) : (ipv6Bytes gs).length = 2 * gs.length := by
  unfold ipv6Bytes
  induction gs with
  | nil => rfl
  | cons g rest ih =>
    rw [List.map_cons, List.flatten_cons, List.length_append, ih]
    simp [List.length_cons]
    omega

lemma compare_ipv6_lt_iff (a b : subnet_t)
    (hla : a.ipv6Address.length = 8) (hlb : b.ipv6Address.length = 8)
    (na nb : node_t) (hoa : a.owner = some na) (hob : b.owner = some nb)
    (hnzb : 0 ∉ nb.name) :
    (subnet_compare_ipv6 a b < 0 ↔
      keyLt (a.prefixlength, ipv6Bytes a.ipv6Address, a.weight, na.name)
        (b.prefixlength, ipv6Bytes b.ipv6Address, b.weight, nb.name)) := by
  show subnet_compare_ipv6 a b < 0 ↔
    (b.prefixlength < a.prefixlength ∨ (a.prefixlength = b.prefixlength ∧
      (listLt (ipv6Bytes a.ipv6Address) (ipv6Bytes b.ipv6Address) ∨
        (ipv6Bytes a.ipv6Address = ipv6Bytes b.ipv6Address ∧
        (a.weight < b.weight ∨ (a.weight = b.weight ∧ listLt na.name nb.name))))))
  unfold subnet_compare_ipv6
  rw [chain_lt_iff _ _ _ _ _
    (by omega : b.prefixlength - a.prefixlength < 0 ↔ b.prefixlength < a.prefixlength)
    (by omega : b.prefixlength - a.prefixlength = 0 ↔ a.prefixlength = b.prefixlength)
    (chain_lt_iff _ _ _ _ _
      (memcmp_neg_iff _ _ (by rw [ipv6Bytes_length, ipv6Bytes_length, hla, hlb]))
      (memcmp_eq_zero_iff _ _ (by rw [ipv6Bytes_length, ipv6Bytes_length, hla, hlb]))
      (owner_chain_lt_iff a.weight b.weight a.owner b.owner na nb hoa hob hnzb))]

lemma compare_ipv6_eq_iff (a b : subnet_t)
    (hla : a.ipv6Address.length = 8) (hlb : b.ipv6Address.length = 8)
    (na nb : node_t) (hoa : a.owner = some na) (hob : b.owner = some nb)
    (hnza : 0 ∉ na.name) (hnzb : 0 ∉ nb.name) :
    (subnet_compare_ipv6 a b = 0 ↔
      (a.prefixlength = b.prefixlength ∧ ipv6Bytes a.ipv6Address = ipv6Bytes b.ipv6Address ∧
       a.weight = b.weight ∧ na.name = nb.name)) := by
  unfold subnet_compare_ipv6
  rw [chain_eq_iff _ _ _ _
    (by omega : b.prefixlength - a.prefixlength = 0 ↔ a.prefixlength = b.prefixlength)
    (chain_eq_iff _ _ _ _
      (memcmp_eq_zero_iff _ _ (by rw [ipv6Bytes_length, ipv6Bytes_length, hla, hlb]))
      (owner_chain_eq_iff a.weight b.weight a.owner b.owner na nb hoa hob hnza hnzb))]

lemma subnet_compare_lt_iff (a b : subnet_t) (ha : wf_subnet a) (hb : wf_subnet b)
    (ht : a.type = b.type) :
    (subnet_compare a b < 0 ↔ orderingPolicyLt a b) := by
  obtain ⟨hta, hma, h4a, h6a, na, hoa, hnza⟩ := ha
  obtain ⟨htb, hmb, h4b, h6b, nb, hob, hnzb⟩ := hb
  have hz : ¬((a.type : Int) - (b.type : Int) ≠ 0) := by rw [ht]; simp
  unfold subnet_compare orderingPolicyLt subnetKey
  rw [if_neg hz]
  rcases hta with h | h | h
  · have hb' : b.type = SUBNET_MAC := ht ▸ h
    rw [if_pos h, if_pos h, if_pos hb', hoa, hob]
    exact compare_mac_lt_iff a b hma hmb na nb hoa hob hnzb
  · have hb' : b.type = SUBNET_IPV4 := ht ▸ h
    have hnma : ¬(a.type = SUBNET_MAC) := by rw [h]; decide
    have hnmb : ¬(b.type = SUBNET_MAC) := by rw [hb']; decide
    rw [if_neg hnma, if_pos h, if_neg hnma, if_pos h, if_neg hnmb, if_pos hb', hoa, hob]
    exact compare_ipv4_lt_iff a b h4a h4b na nb hoa hob hnzb
  · have hb' : b.type = SUBNET_IPV6 := ht ▸ h
    have hnma : ¬(a.type = SUBNET_MAC) := by rw [h]; decide
    have hnmb : ¬(b.type = SUBNET_MAC) := by rw [hb']; decide
    have hn4a : ¬(a.type = SUBNET_IPV4) := by rw [h]; decide
    have hn4b : ¬(b.type = SUBNET_IPV4) := by rw [hb']; decide
    rw [if_neg hnma, if_neg hn4a, if_pos h, if_neg hnma, if_neg hn4a,
      if_neg hnmb, if_neg hn4b, hoa, hob]
    exact compare_ipv6_lt_iff a b h6a h6b na nb hoa hob hnzb

lemma subnet_compare_eq_iff (a b : subnet_t) (ha : wf_subnet a) (hb : wf_subnet b)
    (ht : a.type = b.type) :
    (subnet_compare a b = 0 ↔ subnetKey a = subnetKey b) := by
  obtain ⟨hta, hma, h4a, h6a, na, hoa, hnza⟩ := ha
  obtain ⟨htb, hmb, h4b, h6b, nb, hob, hnzb⟩ := hb
  have hz : ¬((a.type : Int) - (b.type : Int) ≠ 0) := by rw [ht]; simp
  unfold subnet_compare subnetKey
  rw [if_neg hz]
  rcases hta with h | h | h
  · have hb' : b.type = SUBNET_MAC := ht ▸ h
    rw [if_pos h, if_pos h, if_pos hb', hoa, hob,
      compare_mac_eq_iff a b hma hmb na nb hoa hob hnza hnzb]
    simp [Prod.mk.injEq, ownerName]
  · have hb' : b.type = SUBNET_IPV4 := ht ▸ h
    have hnma : ¬(a.type = SUBNET_MAC) := by rw [h]; decide
    have hnmb : ¬(b.type = SUBNET_MAC) := by rw [hb']; decide
    rw [if_neg hnma, if_pos h, if_neg hnma, if_pos h, if_neg hnmb, if_pos hb', hoa, hob,
      compare_ipv4_eq_iff a b h4a h4b na nb hoa hob hnza hnzb]
    simp [Prod.mk.injEq, ownerName]
  · have hb' : b.type = SUBNET_IPV6 := ht ▸ h
    have hnma : ¬(a.type = SUBNET_MAC) := by rw [h]; decide
    have hnmb : ¬(b.type = SUBNET_MAC) := by rw [hb']; decide
    have hn4a : ¬(a.type = SUBNET_IPV4) := by rw [h]; decide
    have hn4b : ¬(b.type = SUBNET_IPV4) := by rw [hb']; decide
    rw [if_neg hnma, if_neg hn4a, if_pos h, if_neg hnma, if_neg hn4a,
      if_neg hnmb, if_neg hn4b, hoa, hob,
      compare_ipv6_eq_iff a b h6a h6b na nb hoa hob hnza hnzb]
    simp [Prod.mk.injEq, ownerName]

/-- C7 (claim): on well-formed stored entries of the same kind, `subnet_compare`
is a total order: exactly one of less-than, equal, greater-than holds; the
strict relation is transitive; strictly-less agrees with the spec's §4.2 policy
(prefix length descending, then address bytes, then weight ascending, then
owner name); and comparing equal means exactly that all four key components
coincide. -/
theorem subnet_compare_total_order :
    ∀ (a b c : subnet_t), wf_subnet a → wf_subnet b → wf_subnet c →
      a.type = b.type → b.type = c.type →
      ((subnet_compare a b < 0 ∨ subnet_compare a b = 0 ∨ 0 < subnet_compare a b) ∧
       ¬(subnet_compare a b < 0 ∧ subnet_compare a b = 0) ∧
       ¬(subnet_compare a b < 0 ∧ 0 < subnet_compare a b) ∧
       ¬(subnet_compare a b = 0 ∧ 0 < subnet_compare a b)) ∧
      (subnet_compare a b < 0 → subnet_compare b c < 0 → subnet_compare a c < 0) ∧
      (subnet_compare a b < 0 ↔ orderingPolicyLt a b) ∧
      (subnet_compare a b = 0 ↔ subnetKey a = subnetKey b) := by
  intro a b c ha hb hc hab hbc
  refine ⟨⟨by omega, by omega, by omega, by omega⟩, ?_,
    subnet_compare_lt_iff a b ha hb hab, subnet_compare_eq_iff a b ha hb hab⟩
  intro h1 h2
  exact (subnet_compare_lt_iff a c ha hc (hab.trans hbc)).2
    (keyLt_trans _ _ _
      ((subnet_compare_lt_iff a b ha hb hab).1 h1)
      ((subnet_compare_lt_iff b c hb hc hbc).1 h2))

/-- Witness for the C7 theorem: applied to three concrete same-kind IPv4
entries (10.0.0.0/24, /16, /8). -/
theorem subnet_compare_total_order_witness :
    (subnet_compare subnetB24 subnetA16 < 0 ↔ orderingPolicyLt subnetB24 subnetA16) ∧
    subnet_compare subnetB24 subnetA16 < 0 :=
  ⟨(subnet_compare_total_order subnetB24 subnetA16 subnetB8
      ⟨Or.inr (Or.inl rfl), rfl, rfl, rfl, nodeB, rfl, by decide⟩
      ⟨Or.inr (Or.inl rfl), rfl, rfl, rfl, nodeA, rfl, by decide⟩
      ⟨Or.inr (Or.inl rfl), rfl, rfl, rfl, nodeB, rfl, by decide⟩
      rfl rfl).2.2.1,
   by decide⟩

/-! ### The codec round trip: digit-level lemmas -/

lemma decVal_digitChar : ∀ d, d < 10 → decVal? (Nat.digitChar d) = some d := by decide

lemma hexVal_digitChar : ∀ d, d < 16 → hexVal? (Nat.digitChar d) = some d := by decide

lemma digitChar_facts : ∀ d, d < 16 →
    (isSpaceC (Nat.digitChar d) = false ∧ Nat.digitChar d ≠ '-' ∧ Nat.digitChar d ≠ '+' ∧
     Nat.digitChar d ≠ '.' ∧ Nat.digitChar d ≠ ':' ∧ Nat.digitChar d ≠ '/' ∧
     Nat.digitChar d ≠ '#' ∧ Nat.digitChar d ≠ 'x' ∧ Nat.digitChar d ≠ 'X') := by decide

lemma natDigits_ne_nil (b n : Nat) (hb : 2 ≤ b) : natDigits b n ≠ [] := by
  rw [natDigits, dif_neg (by omega : ¬b ≤ 1)]
  by_cases h : n < b
  · rw [if_pos h]; simp
  · rw [if_neg h]; simp

lemma natDigits_mem (b : Nat) (hb : 2 ≤ b) :
    ∀ n c, c ∈ natDigits b n → ∃ d, d < b ∧ c = Nat.digitChar d := by
  intro n
  induction n using Nat.strong_induction_on with
  | _ n ih =>
    intro c hc
    rw [natDigits, dif_neg (by omega : ¬b ≤ 1)] at hc
    by_cases h : n < b
    · rw [if_pos h] at hc
      simp at hc
      exact ⟨n, h, hc⟩
    · rw [if_neg h] at hc
      rcases List.mem_append.1 hc with h1 | h1
      · exact ih (n / b) (Nat.div_lt_self (by omega) (by omega)) c h1
      · simp at h1
        exact ⟨n % b, Nat.mod_lt _ (by omega), h1⟩

/-- The input begins with a non-digit (or is empty): a digit run stops here. -/
def scanStop (dv : Char → Option Nat) (rest : List Char) : Prop :=
  rest = [] ∨ ∃ c cs, rest = c :: cs ∧ dv c = none

lemma scanDigits_stop (dv : Char → Option Nat) (base : Nat) (acc : Nat) (rest : List Char)
    (h : scanStop dv rest) : scanDigits dv base rest acc = (acc, rest) := by
  rcases h with h | ⟨c, cs, rfl, hc⟩
  · subst h; rfl
  · simp [scanDigits, hc]

lemma scanDigits_append (dv : Char → Option Nat) (base : Nat)
    (hdv : ∀ d, d < base → dv (Nat.digitChar d) = some d) (hb : 2 ≤ base) :
    ∀ n acc rest, scanDigits dv base (natDigits base n ++ rest) acc
      = scanDigits dv base rest (acc * base ^ (natDigits base n).length + n) := by
  intro n
  induction n using Nat.strong_induction_on with
  | _ n ih =>
    intro acc rest
    rw [natDigits, dif_neg (by omega : ¬base ≤ 1)]
    by_cases h : n < base
    · rw [if_pos h, List.singleton_append, scanDigits, hdv n h]
      simp [pow_one]
    · rw [if_neg h, List.append_assoc,
        ih (n / base) (Nat.div_lt_self (by omega) (by omega)) acc _,
        List.singleton_append, scanDigits, hdv (n % base) (Nat.mod_lt _ (by omega))]
      show scanDigits dv base rest _ = scanDigits dv base rest _
      congr 1
      have h2 : n / base * base + n % base = n := Nat.div_add_mod' n base
      calc (acc * base ^ (natDigits base (n / base)).length + n / base) * base + n % base
          = acc * (base ^ (natDigits base (n / base)).length * base)
              + (n / base * base + n % base) := by ring
        _ = acc * base ^ (natDigits base (n / base)).length.succ + n := by
              rw [h2, pow_succ]
      rw [List.length_append, List.length_singleton]

lemma scanUnsigned_digits (dv : Char → Option Nat) (base wrap : Nat)
    (hdv : ∀ d, d < base → dv (Nat.digitChar d) = some d) (hb : 2 ≤ base)
    (n : Nat) (rest : List Char) (hstop : scanStop dv rest) :
    scanUnsigned dv base wrap false (natDigits base n ++ rest) = some (n % wrap, rest) := by
  obtain ⟨c, cs, hD⟩ : ∃ c cs, natDigits base n = c :: cs := by
    cases hD : natDigits base n with
    | nil => exact absurd hD (natDigits_ne_nil base n hb)
    | cons c cs => exact ⟨c, cs, rfl⟩
  obtain ⟨d, hd, hcd⟩ := natDigits_mem base hb n c (hD ▸ List.mem_cons_self c cs)
  have hkey : scanDigits dv base (natDigits base n ++ rest) 0 = (n, rest) := by
    rw [scanDigits_append dv base hdv hb n 0 rest, scanDigits_stop dv base _ rest hstop]
    simp
  rw [hD, List.cons_append] at hkey ⊢
  rw [scanDigits, hcd, hdv d hd] at hkey
  simp only [Nat.zero_mul, Nat.zero_add] at hkey
  rw [scanUnsigned, hcd, hdv d hd]
  simp [hkey]

lemma scanNat_digits (n : Nat) (rest : List Char) (hstop : scanStop decVal? rest) :
    scanNat (natDigits 10 n ++ rest) = some (n, rest) := by
  obtain ⟨c, cs, hD⟩ : ∃ c cs, natDigits 10 n = c :: cs := by
    cases hD : natDigits 10 n with
    | nil => exact absurd hD (natDigits_ne_nil 10 n (by omega))
    | cons c cs => exact ⟨c, cs, rfl⟩
  obtain ⟨d, hd, hcd⟩ := natDigits_mem 10 (by omega) n c (hD ▸ List.mem_cons_self c cs)
  have hkey : scanDigits decVal? 10 (natDigits 10 n ++ rest) 0 = (n, rest) := by
    rw [scanDigits_append decVal? 10 decVal_digitChar (by omega) n 0 rest,
      scanDigits_stop decVal? 10 _ rest hstop]
    simp
  rw [hD, List.cons_append] at hkey ⊢
  rw [scanDigits, hcd, decVal_digitChar d hd] at hkey
  simp only [Nat.zero_mul, Nat.zero_add] at hkey
  rw [scanNat, hcd, decVal_digitChar d hd]
  simp [hkey]

lemma dropWhile_signSplit_digits (b : Nat) (hb : 2 ≤ b) (hb16 : b ≤ 16)
    (n : Nat) (rest : List Char) :
    (natDigits b n ++ rest).dropWhile isSpaceC = natDigits b n ++ rest ∧
    signSplit (natDigits b n ++ rest) = (false, natDigits b n ++ rest) := by
  obtain ⟨c, cs, hD⟩ : ∃ c cs, natDigits b n = c :: cs := by
    cases hD : natDigits b n with
    | nil => exact absurd hD (natDigits_ne_nil b n hb)
    | cons c cs => exact ⟨c, cs, rfl⟩
  obtain ⟨d, hd, hcd⟩ := natDigits_mem b hb n c (hD ▸ List.mem_cons_self c cs)
  obtain ⟨hsp, hminus, hplus, -⟩ := digitChar_facts d (by omega)
  rw [hD, List.cons_append]
  constructor
  · rw [List.dropWhile_cons, hcd, hsp]
    simp
  · rw [signSplit, hcd]
    rw [if_neg hminus, if_neg hplus]

lemma scan_hu_digits (n : Nat) (rest : List Char) (hstop : scanStop decVal? rest) :
    scan_hu (natDigits 10 n ++ rest) = some (n % 65536, rest) := by
  obtain ⟨hdrop, hsign⟩ := dropWhile_signSplit_digits 10 (by omega) (by omega) n rest
  rw [scan_hu, hdrop, hsign]
  exact scanUnsigned_digits decVal? 10 65536 decVal_digitChar (by omega) n rest hstop

lemma starts0x_false (l : List Char)
    (h : ∀ c0 c1 cs, l = c0 :: c1 :: cs → (c1 ≠ 'x' ∧ c1 ≠ 'X')) : starts0x l = false := by
  match l with
  | [] => rfl
  | [c] => rfl
  | c0 :: c1 :: cs =>
    obtain ⟨hx, hX⟩ := h c0 c1 cs rfl
    cases cs with
    | nil => rfl
    | cons c2 cs2 =>
      show (decide (c0 = '0') && (decide (c1 = 'x') || decide (c1 = 'X'))
        && (hexVal? c2).isSome) = false
      rw [decide_eq_false hx, decide_eq_false hX]
      simp

lemma scan_hx_digits (n : Nat) (rest : List Char) (hstop : scanStop hexVal? rest)
    (hx : ∀ c cs, rest = c :: cs → (c ≠ 'x' ∧ c ≠ 'X')) :
    scan_hx (natDigits 16 n ++ rest) = some (n % 65536, rest) := by
  obtain ⟨hdrop, hsign⟩ := dropWhile_signSplit_digits 16 (by omega) (by omega) n rest
  have h0x : starts0x (natDigits 16 n ++ rest) = false := by
    apply starts0x_false
    intro c0 c1 cs heq
    obtain ⟨c, cs0, hD⟩ : ∃ c cs0, natDigits 16 n = c :: cs0 := by
      cases hD : natDigits 16 n with
      | nil => exact absurd hD (natDigits_ne_nil 16 n (by omega))
      | cons c cs0 => exact ⟨c, cs0, rfl⟩
    rw [hD, List.cons_append] at heq
    cases cs0 with
    | nil =>
      rw [List.nil_append] at heq
      cases rest with
      | nil => cases heq
      | cons r0 rs =>
        have h1 : c1 = r0 := by
          injection heq with h1 h2
          injection h2 with h2 h3
          exact h2.symm
        exact h1 ▸ hx r0 rs rfl
    | cons c1' cs0' =>
      have hmem : c1' ∈ natDigits 16 n := by
        rw [hD]; exact List.mem_cons_of_mem c (List.mem_cons_self c1' cs0')
      obtain ⟨d, hd, hcd⟩ := natDigits_mem 16 (by omega) n c1' hmem
      obtain ⟨-, -, -, -, -, -, -, hxx, hXX⟩ := digitChar_facts d hd
      have h1 : c1 = c1' := by
        rw [List.cons_append] at heq
        injection heq with h1 h2
        injection h2 with h2 h3
        exact h2.symm
      exact ⟨h1 ▸ hcd ▸ hxx, h1 ▸ hcd ▸ hXX⟩
  rw [scan_hx, hdrop, hsign]
  simp only [h0x, Bool.false_eq_true, if_false]
  exact scanUnsigned_digits hexVal? 16 65536 hexVal_digitChar (by omega) n rest hstop

lemma scan_int_chars (i : Int) (rest : List Char) (hstop : scanStop decVal? rest) :
    scan_int (intChars i ++ rest) = some (i, rest) := by
  by_cases hneg : i < 0
  · rw [intChars, if_pos hneg, List.cons_append, scan_int]
    have hdrop : (('-' :: (natDigits 10 (-i).toNat ++ rest)).dropWhile isSpaceC)
        = '-' :: (natDigits 10 (-i).toNat ++ rest) := by
      rw [List.dropWhile_cons]
      simp [isSpaceC]
    rw [hdrop]
    show (scanNat (natDigits 10 (-i).toNat ++ rest)).map _ = _
    rw [scanNat_digits (-i).toNat rest hstop]
    simp [Prod.ext_iff]
    omega
  · rw [intChars, if_neg hneg]
    obtain ⟨hdrop, hsign⟩ := dropWhile_signSplit_digits 10 (by omega) (by omega) i.toNat rest
    rw [scan_int, hdrop, hsign]
    show (scanNat (natDigits 10 i.toNat ++ rest)).map _ = _
    rw [scanNat_digits i.toNat rest hstop]
    simp [Prod.ext_iff]
    omega

lemma expectChar_cons (c : Char) (rest : List Char) : expectChar c (c :: rest) = some rest := by
  rw [expectChar, if_pos rfl]

lemma scan_hu_sep (x : Nat) (hx : x < 65536) (c : Char) (cs : List Char)
    (hc : decVal? c = none) :
    scan_hu (natDigits 10 x ++ c :: cs) = some (x, c :: cs) := by
  rw [scan_hu_digits x (c :: cs) (Or.inr ⟨c, cs, rfl, hc⟩), Nat.mod_eq_of_lt hx]

lemma scan_hx_sep (x : Nat) (c : Char) (cs : List Char)
    (hc : hexVal? c = none) (hcx : c ≠ 'x') (hcX : c ≠ 'X') :
    scan_hx (natDigits 16 x ++ c :: cs) = some (x % 65536, c :: cs) := by
  refine scan_hx_digits x (c :: cs) (Or.inr ⟨c, cs, rfl, hc⟩) ?_
  intro c' cs' he
  injection he with he1 he2
  subst he1
  exact ⟨hcx, hcX⟩

lemma scan_hx_sep_lt (x : Nat) (hx : x < 65536) (c : Char) (cs : List Char)
    (hc : hexVal? c = none) (hcx : c ≠ 'x') (hcX : c ≠ 'X') :
    scan_hx (natDigits 16 x ++ c :: cs) = some (x, c :: cs) := by
  rw [scan_hx_sep x c cs hc hcx hcX, Nat.mod_eq_of_lt hx]

lemma scan_int_sep (i : Int) (c : Char) (cs : List Char) (hc : decVal? c = none) :
    scan_int (intChars i ++ c :: cs) = some (i, c :: cs) :=
  scan_int_chars i (c :: cs) (Or.inr ⟨c, cs, rfl, hc⟩)

lemma scan_weight_tail_chars (w : Int) (junk : List Char) (hjunk : scanStop decVal? junk) :
    scan_weight_tail ('#' :: (intChars w ++ junk)) = some w := by
  rw [scan_weight_tail, expectChar_cons]
  simp [scan_int_chars w junk hjunk]

lemma memcmp_self : ∀ (l : List Nat), memcmpBytes l l = 0 := by
  intro l
  induction l with
  | nil => rfl
  | cons x xs ih => rw [memcmpBytes, if_pos rfl]; exact ih

lemma swap16_swap16 (v : Nat) (hv : v < 65536) : swap16 (swap16 v) = v := by
  obtain ⟨q, r, hq, hr, rfl⟩ : ∃ q r, q < 256 ∧ r < 256 ∧ v = 256 * q + r :=
    ⟨v / 256, v % 256, by omega, by omega, by omega⟩
  unfold swap16
  have e1 : (256 * q + r) % 256 = r := by omega
  have e2 : (256 * q + r) / 256 = q := by omega
  rw [e1, e2]
  have e3 : q % 256 = q := Nat.mod_eq_of_lt hq
  rw [e3]
  have e4 : (r * 256 + q) % 256 = q := by omega
  have e5 : (r * 256 + q) / 256 = r := by omega
  rw [e4, e5]
  have e6 : r % 256 = r := Nat.mod_eq_of_lt hr
  rw [e6]
  omega

/-! Suffix tracking: the rest of the input a conversion leaves behind is a
suffix of what it was given, so a character absent from the input cannot turn
up at the resumption point. -/

lemma scanDigits_suffix (dv : Char → Option Nat) (base : Nat) :
    ∀ (l : List Char) (acc : Nat), (scanDigits dv base l acc).2 <:+ l := by
  intro l
  induction l with
  | nil => intro acc; exact List.suffix_refl []
  | cons c cs ih =>
    intro acc
    rw [scanDigits]
    cases hd : dv c with
    | some d => exact (ih (acc * base + d)).trans (List.suffix_cons c cs)
    | none => exact List.suffix_refl _

lemma signSplit_suffix (input : List Char) : (signSplit input).2 <:+ input := by
  cases input with
  | nil => exact List.suffix_refl _
  | cons c cs =>
    rw [signSplit]
    by_cases h1 : c = '-'
    · rw [if_pos h1]; exact List.suffix_cons c cs
    · rw [if_neg h1]
      by_cases h2 : c = '+'
      · rw [if_pos h2]; exact List.suffix_cons c cs
      · rw [if_neg h2]

lemma scanUnsigned_suffix (dv : Char → Option Nat) (base wrap : Nat) (neg : Bool)
    (input : List Char) (p : Nat × List Char)
    (h : scanUnsigned dv base wrap neg input = some p) : p.2 <:+ input := by
  cases input with
  | nil => cases h
  | cons c cs =>
    rw [scanUnsigned] at h
    cases hd : dv c with
    | none => rw [hd] at h; cases h
    | some d =>
      rw [hd] at h
      simp only [] at h
      have h2 : p.2 = (scanDigits dv base cs d).2 := by
        cases hp : scanDigits dv base cs d with
        | mk v r => rw [hp] at h; cases h; rfl
      rw [h2]
      exact (scanDigits_suffix dv base cs d).trans (List.suffix_cons c cs)

lemma scan_hu_suffix (input : List Char) (p : Nat × List Char)
    (h : scan_hu input = some p) : p.2 <:+ input := by
  rw [scan_hu] at h
  exact ((scanUnsigned_suffix _ _ _ _ _ p h).trans
    (signSplit_suffix (input.dropWhile isSpaceC))).trans (List.dropWhile_suffix isSpaceC)

lemma sscanf_ipv4_cidr_no_dot (input : List Char) (h : '.' ∉ input) :
    sscanf_ipv4_cidr input = none := by
  rw [sscanf_ipv4_cidr]
  cases hs : scan_hu input with
  | none => rfl
  | some p0 =>
    have hsuf := scan_hu_suffix input p0 hs
    have hdot : scanHuDot p0.2 = none := by
      rw [scanHuDot]
      cases hp : p0.2 with
      | nil => rfl
      | cons c cs =>
        have hc : ¬(c = '.') := fun he =>
          h (hsuf.subset (hp ▸ List.mem_cons_self c cs) |> (he ▸ ·))
        rw [expectChar, if_neg hc]
    simp only []
    rw [hdot]

lemma sscanf_ipv4_host_no_dot (input : List Char) (h : '.' ∉ input) :
    sscanf_ipv4_host input = none := by
  rw [sscanf_ipv4_host]
  cases hs : scan_hu input with
  | none => rfl
  | some p0 =>
    have hsuf := scan_hu_suffix input p0 hs
    have hdot : scanHuDot p0.2 = none := by
      rw [scanHuDot]
      cases hp : p0.2 with
      | nil => rfl
      | cons c cs =>
        have hc : ¬(c = '.') := fun he =>
          h (hsuf.subset (hp ▸ List.mem_cons_self c cs) |> (he ▸ ·))
        rw [expectChar, if_neg hc]
    simp only []
    rw [hdot]

lemma dot_not_mem_natDigits (b n : Nat) (hb : 2 ≤ b) (hb16 : b ≤ 16) :
    '.' ∉ natDigits b n := by
  intro hmem
  obtain ⟨d, hd, hc⟩ := natDigits_mem b hb n '.' hmem
  exact (digitChar_facts d (by omega)).2.2.2.1 hc.symm

lemma dot_not_mem_intChars (i : Int) : '.' ∉ intChars i := by
  rw [intChars]
  by_cases h : i < 0
  · rw [if_pos h]
    intro hmem
    rcases List.mem_cons.1 hmem with h1 | h1
    · cases h1
    · exact dot_not_mem_natDigits 10 (-i).toNat (by omega) (by omega) h1
  · rw [if_neg h]
    exact dot_not_mem_natDigits 10 i.toNat (by omega) (by omega)

lemma sscanf_ipv4_cidr_render (a b c d : Nat) (l w : Int)
    (ha : a < 65536) (hb : b < 65536) (hc : c < 65536) (hd : d < 65536)
    (junk : List Char) (hjunk : scanStop decVal? junk) :
    sscanf_ipv4_cidr (natDigits 10 a ++ ('.' :: (natDigits 10 b ++ ('.' :: (natDigits 10 c ++
      ('.' :: (natDigits 10 d ++ ('/' :: (intChars l ++ ('#' :: (intChars w ++ junk)))))))))))
      = some ((a, b, c, d), l, some w) := by
  rw [sscanf_ipv4_cidr]
  rw [scan_hu_sep a ha '.' _ (by decide)]
  simp only []
  rw [scanHuDot, expectChar_cons]
  simp only []
  rw [scan_hu_sep b hb '.' _ (by decide)]
  simp only []
  rw [scanHuDot, expectChar_cons]
  simp only []
  rw [scan_hu_sep c hc '.' _ (by decide)]
  simp only []
  rw [scanHuDot, expectChar_cons]
  simp only []
  rw [scan_hu_sep d hd '/' _ (by decide)]
  simp only []
  rw [scanSlashInt, expectChar_cons]
  simp only []
  rw [scan_int_sep l '#' _ (by decide)]
  simp only []
  rw [scan_weight_tail_chars w junk hjunk]

lemma sscanf_ipv6_cidr_render (g0 g1 g2 g3 g4 g5 g6 g7 : Nat) (l w : Int)
    (h0 : g0 < 65536) (h1 : g1 < 65536) (h2 : g2 < 65536) (h3 : g3 < 65536)
    (h4 : g4 < 65536) (h5 : g5 < 65536) (h6 : g6 < 65536) (h7 : g7 < 65536)
    (junk : List Char) (hjunk : scanStop decVal? junk) :
    sscanf_ipv6_cidr (natDigits 16 g0 ++ (':' :: (natDigits 16 g1 ++ (':' :: (natDigits 16 g2 ++
      (':' :: (natDigits 16 g3 ++ (':' :: (natDigits 16 g4 ++ (':' :: (natDigits 16 g5 ++
      (':' :: (natDigits 16 g6 ++ (':' :: (natDigits 16 g7 ++
      ('/' :: (intChars l ++ ('#' :: (intChars w ++ junk)))))))))))))))))))
      = some ([g0, g1, g2, g3, g4, g5, g6, g7], l, some w) := by
  rw [sscanf_ipv6_cidr]
  rw [scan_hx_sep_lt g0 h0 ':' _ (by decide) (by decide) (by decide)]
  simp only []
  rw [scanHexColon, expectChar_cons]
  simp only []
  rw [scan_hx_sep_lt g1 h1 ':' _ (by decide) (by decide) (by decide)]
  simp only []
  rw [scanHexColon, expectChar_cons]
  simp only []
  rw [scan_hx_sep_lt g2 h2 ':' _ (by decide) (by decide) (by decide)]
  simp only []
  rw [scanHexColon, expectChar_cons]
  simp only []
  rw [scan_hx_sep_lt g3 h3 ':' _ (by decide) (by decide) (by decide)]
  simp only []
  rw [scanHexColon, expectChar_cons]
  simp only []
  rw [scan_hx_sep_lt g4 h4 ':' _ (by decide) (by decide) (by decide)]
  simp only []
  rw [scanHexColon, expectChar_cons]
  simp only []
  rw [scan_hx_sep_lt g5 h5 ':' _ (by decide) (by decide) (by decide)]
  simp only []
  rw [scanHexColon, expectChar_cons]
  simp only []
  rw [scan_hx_sep_lt g6 h6 ':' _ (by decide) (by decide) (by decide)]
  simp only []
  rw [scanHexColon, expectChar_cons]
  simp only []
  rw [scan_hx_sep_lt g7 h7 '/' _ (by decide) (by decide) (by decide)]
  simp only []
  rw [scanSlashInt, expectChar_cons]
  simp only []
  rw [scan_int_sep l '#' _ (by decide)]
  simp only []
  rw [scan_weight_tail_chars w junk hjunk]

lemma sscanf_mac_render (x0 x1 x2 x3 x4 x5 : Nat) (w : Int)
    (h0 : x0 < 65536) (h1 : x1 < 65536) (h2 : x2 < 65536) (h3 : x3 < 65536)
    (h4 : x4 < 65536) (h5 : x5 < 65536)
    (junk : List Char) (hjunk : scanStop decVal? junk) :
    sscanf_mac (natDigits 16 x0 ++ (':' :: (natDigits 16 x1 ++ (':' :: (natDigits 16 x2 ++
      (':' :: (natDigits 16 x3 ++ (':' :: (natDigits 16 x4 ++ (':' :: (natDigits 16 x5 ++
      ('#' :: (intChars w ++ junk)))))))))))))
      = some ([x0, x1, x2, x3, x4, x5], some w) := by
  rw [sscanf_mac]
  rw [scan_hx_sep_lt x0 h0 ':' _ (by decide) (by decide) (by decide)]
  simp only []
  rw [scanHexColon, expectChar_cons]
  simp only []
  rw [scan_hx_sep_lt x1 h1 ':' _ (by decide) (by decide) (by decide)]
  simp only []
  rw [scanHexColon, expectChar_cons]
  simp only []
  rw [scan_hx_sep_lt x2 h2 ':' _ (by decide) (by decide) (by decide)]
  simp only []
  rw [scanHexColon, expectChar_cons]
  simp only []
  rw [scan_hx_sep_lt x3 h3 ':' _ (by decide) (by decide) (by decide)]
  simp only []
  rw [scanHexColon, expectChar_cons]
  simp only []
  rw [scan_hx_sep_lt x4 h4 ':' _ (by decide) (by decide) (by decide)]
  simp only []
  rw [scanHexColon, expectChar_cons]
  simp only []
  rw [scan_hx_sep_lt x5 h5 '#' _ (by decide) (by decide) (by decide)]
  simp only []
  rw [scan_weight_tail_chars w junk hjunk]

lemma sscanf_ipv6_cidr_on_mac (x0 x1 x2 x3 x4 x5 : Nat) (w : Int) (junk : List Char) :
    sscanf_ipv6_cidr (natDigits 16 x0 ++ (':' :: (natDigits 16 x1 ++ (':' :: (natDigits 16 x2 ++
      (':' :: (natDigits 16 x3 ++ (':' :: (natDigits 16 x4 ++ (':' :: (natDigits 16 x5 ++
      ('#' :: (intChars w ++ junk)))))))))))))
      = none := by
  rw [sscanf_ipv6_cidr]
  rw [scan_hx_sep x0 ':' _ (by decide) (by decide) (by decide)]
  simp only []
  rw [scanHexColon, expectChar_cons]
  simp only []
  rw [scan_hx_sep x1 ':' _ (by decide) (by decide) (by decide)]
  simp only []
  rw [scanHexColon, expectChar_cons]
  simp only []
  rw [scan_hx_sep x2 ':' _ (by decide) (by decide) (by decide)]
  simp only []
  rw [scanHexColon, expectChar_cons]
  simp only []
  rw [scan_hx_sep x3 ':' _ (by decide) (by decide) (by decide)]
  simp only []
  rw [scanHexColon, expectChar_cons]
  simp only []
  rw [scan_hx_sep x4 ':' _ (by decide) (by decide) (by decide)]
  simp only []
  rw [scanHexColon, expectChar_cons]
  simp only []
  rw [scan_hx_sep x5 '#' _ (by decide) (by decide) (by decide)]
  simp only []
  rw [scanHexColon, expectChar, if_neg (by decide)]

lemma sscanf_ipv6_host_on_mac (x0 x1 x2 x3 x4 x5 : Nat) (w : Int) (junk : List Char) :
    sscanf_ipv6_host (natDigits 16 x0 ++ (':' :: (natDigits 16 x1 ++ (':' :: (natDigits 16 x2 ++
      (':' :: (natDigits 16 x3 ++ (':' :: (natDigits 16 x4 ++ (':' :: (natDigits 16 x5 ++
      ('#' :: (intChars w ++ junk)))))))))))))
      = none := by
  rw [sscanf_ipv6_host]
  rw [scan_hx_sep x0 ':' _ (by decide) (by decide) (by decide)]
  simp only []
  rw [scanHexColon, expectChar_cons]
  simp only []
  rw [scan_hx_sep x1 ':' _ (by decide) (by decide) (by decide)]
  simp only []
  rw [scanHexColon, expectChar_cons]
  simp only []
  rw [scan_hx_sep x2 ':' _ (by decide) (by decide) (by decide)]
  simp only []
  rw [scanHexColon, expectChar_cons]
  simp only []
  rw [scan_hx_sep x3 ':' _ (by decide) (by decide) (by decide)]
  simp only []
  rw [scanHexColon, expectChar_cons]
  simp only []
  rw [scan_hx_sep x4 ':' _ (by decide) (by decide) (by decide)]
  simp only []
  rw [scanHexColon, expectChar_cons]
  simp only []
  rw [scan_hx_sep x5 '#' _ (by decide) (by decide) (by decide)]
  simp only []
  rw [scanHexColon, expectChar, if_neg (by decide)]

lemma net2str_mac (e : subnet_t) (b0 b1 b2 b3 b4 b5 : Nat)
    (ht : e.type = SUBNET_MAC) (haddr : e.macAddress = [b0, b1, b2, b3, b4, b5]) :
    net2str e = some (natDigits 16 b0 ++ (':' :: (natDigits 16 b1 ++ (':' :: (natDigits 16 b2 ++
      (':' :: (natDigits 16 b3 ++ (':' :: (natDigits 16 b4 ++ (':' :: (natDigits 16 b5 ++
      ('#' :: (intChars e.weight ++ []))))))))))))) := by
  rw [net2str, if_pos ht, haddr]
  simp [joinSep, List.append_assoc]

lemma net2str_ipv4 (e : subnet_t) (a b c d : Nat)
    (ht : e.type = SUBNET_IPV4) (haddr : e.ipv4Address = [a, b, c, d]) :
    net2str e = some (natDigits 10 a ++ ('.' :: (natDigits 10 b ++ ('.' :: (natDigits 10 c ++
      ('.' :: (natDigits 10 d ++ ('/' :: (intChars e.prefixlength ++
      ('#' :: (intChars e.weight ++ []))))))))))) := by
  rw [net2str, if_neg (by rw [ht]; decide), if_pos ht, haddr]
  simp [joinSep, List.append_assoc]

lemma net2str_ipv6 (e : subnet_t) (s0 s1 s2 s3 s4 s5 s6 s7 : Nat)
    (ht : e.type = SUBNET_IPV6) (haddr : e.ipv6Address = [s0, s1, s2, s3, s4, s5, s6, s7]) :
    net2str e = some (natDigits 16 (ntohs s0) ++ (':' :: (natDigits 16 (ntohs s1) ++
      (':' :: (natDigits 16 (ntohs s2) ++ (':' :: (natDigits 16 (ntohs s3) ++
      (':' :: (natDigits 16 (ntohs s4) ++ (':' :: (natDigits 16 (ntohs s5) ++
      (':' :: (natDigits 16 (ntohs s6) ++ (':' :: (natDigits 16 (ntohs s7) ++
      ('/' :: (intChars e.prefixlength ++ ('#' :: (intChars e.weight ++ []))))))))))))))))))) := by
  rw [net2str, if_neg (by rw [ht]; decide), if_neg (by rw [ht]; decide), if_pos ht, haddr]
  simp [joinSep, List.append_assoc]

lemma write_ipv4_octets_ok (s0 : subnet_t) (a b c d : Nat)
    (hs : s0.ipv4Address = [0, 0, 0, 0])
    (ha : a ≤ 255) (hb : b ≤ 255) (hc : c ≤ 255) (hd : d ≤ 255) :
    write_ipv4_octets s0 0 [a, b, c, d] = (true, { s0 with ipv4Address := [a, b, c, d] }) := by
  rw [write_ipv4_octets, if_neg (by omega), write_ipv4_octets, if_neg (by omega),
    write_ipv4_octets, if_neg (by omega), write_ipv4_octets, if_neg (by omega),
    write_ipv4_octets]
  simp [hs, List.set]

lemma write_mac_bytes_eval (s0 : subnet_t) (x0 x1 x2 x3 x4 x5 : Nat)
    (hs : s0.macAddress = [0, 0, 0, 0, 0, 0]) :
    write_mac_bytes s0 0 [x0, x1, x2, x3, x4, x5]
      = { s0 with macAddress := [x0 % 256, x1 % 256, x2 % 256, x3 % 256, x4 % 256, x5 % 256] } := by
  rw [write_mac_bytes, write_mac_bytes, write_mac_bytes, write_mac_bytes,
    write_mac_bytes, write_mac_bytes, write_mac_bytes]
  simp [hs, List.set]

lemma write_ipv6_groups_eval (s0 : subnet_t) (g0 g1 g2 g3 g4 g5 g6 g7 : Nat)
    (hs : s0.ipv6Address = [0, 0, 0, 0, 0, 0, 0, 0]) :
    write_ipv6_groups s0 0 [g0, g1, g2, g3, g4, g5, g6, g7]
      = { s0 with ipv6Address := [htons g0, htons g1, htons g2, htons g3,
          htons g4, htons g5, htons g6, htons g7] } := by
  rw [write_ipv6_groups, write_ipv6_groups, write_ipv6_groups, write_ipv6_groups,
    write_ipv6_groups, write_ipv6_groups, write_ipv6_groups, write_ipv6_groups,
    write_ipv6_groups]
  simp [hs, List.set]

lemma str2net_ipv4_canonical (s : subnet_t) (a b c d : Nat) (l w : Int)
    (ha : a < 65536) (hb : b < 65536) (hc : c < 65536) (hd : d < 65536)
    (hl0 : 0 ≤ l) (hl32 : l ≤ 32) (junk : List Char) (hjunk : scanStop decVal? junk) :
    str2net s (natDigits 10 a ++ ('.' :: (natDigits 10 b ++ ('.' :: (natDigits 10 c ++
      ('.' :: (natDigits 10 d ++ ('/' :: (intChars l ++ ('#' :: (intChars w ++ junk)))))))))))
      = write_ipv4_octets { s with type := SUBNET_IPV4, prefixlength := l, weight := w }
          0 [a, b, c, d] := by
  rw [str2net, sscanf_ipv4_cidr_render a b c d l w ha hb hc hd junk hjunk]
  simp only []
  rw [if_neg (by omega)]
  rfl

lemma str2net_mac_canonical (s : subnet_t) (x0 x1 x2 x3 x4 x5 : Nat) (w : Int)
    (h0 : x0 < 65536) (h1 : x1 < 65536) (h2 : x2 < 65536) (h3 : x3 < 65536)
    (h4 : x4 < 65536) (h5 : x5 < 65536)
    (junk : List Char) (hjunk : scanStop decVal? junk) (hdj : '.' ∉ junk) :
    str2net s (natDigits 16 x0 ++ (':' :: (natDigits 16 x1 ++ (':' :: (natDigits 16 x2 ++
      (':' :: (natDigits 16 x3 ++ (':' :: (natDigits 16 x4 ++ (':' :: (natDigits 16 x5 ++
      ('#' :: (intChars w ++ junk)))))))))))))
      = (true, write_mac_bytes { s with type := SUBNET_MAC, weight := w }
          0 [x0, x1, x2, x3, x4, x5]) := by
  have hdot : '.' ∉ (natDigits 16 x0 ++ (':' :: (natDigits 16 x1 ++ (':' :: (natDigits 16 x2 ++
      (':' :: (natDigits 16 x3 ++ (':' :: (natDigits 16 x4 ++ (':' :: (natDigits 16 x5 ++
      ('#' :: (intChars w ++ junk))))))))))))) := by
    intro hmem
    simp only [List.mem_append, List.mem_cons] at hmem
    rcases hmem with h | h | h | h | h | h | h | h | h | h | h | h | h | h
    · exact dot_not_mem_natDigits 16 x0 (by omega) (by omega) h
    · exact absurd h (by decide)
    · exact dot_not_mem_natDigits 16 x1 (by omega) (by omega) h
    · exact absurd h (by decide)
    · exact dot_not_mem_natDigits 16 x2 (by omega) (by omega) h
    · exact absurd h (by decide)
    · exact dot_not_mem_natDigits 16 x3 (by omega) (by omega) h
    · exact absurd h (by decide)
    · exact dot_not_mem_natDigits 16 x4 (by omega) (by omega) h
    · exact absurd h (by decide)
    · exact dot_not_mem_natDigits 16 x5 (by omega) (by omega) h
    · exact absurd h (by decide)
    · exact dot_not_mem_intChars w h
    · exact hdj h
  rw [str2net, sscanf_ipv4_cidr_no_dot _ hdot,
    sscanf_ipv6_cidr_on_mac x0 x1 x2 x3 x4 x5 w junk,
    sscanf_ipv4_host_no_dot _ hdot,
    sscanf_ipv6_host_on_mac x0 x1 x2 x3 x4 x5 w junk,
    sscanf_mac_render x0 x1 x2 x3 x4 x5 w h0 h1 h2 h3 h4 h5 junk hjunk]
  rfl

lemma str2net_ipv6_canonical (s : subnet_t) (g0 g1 g2 g3 g4 g5 g6 g7 : Nat) (l w : Int)
    (h0 : g0 < 65536) (h1 : g1 < 65536) (h2 : g2 < 65536) (h3 : g3 < 65536)
    (h4 : g4 < 65536) (h5 : g5 < 65536) (h6 : g6 < 65536) (h7 : g7 < 65536)
    (hl0 : 0 ≤ l) (hl128 : l ≤ 128)
    (junk : List Char) (hjunk : scanStop decVal? junk) (hdj : '.' ∉ junk) :
    str2net s (natDigits 16 g0 ++ (':' :: (natDigits 16 g1 ++ (':' :: (natDigits 16 g2 ++
      (':' :: (natDigits 16 g3 ++ (':' :: (natDigits 16 g4 ++ (':' :: (natDigits 16 g5 ++
      (':' :: (natDigits 16 g6 ++ (':' :: (natDigits 16 g7 ++
      ('/' :: (intChars l ++ ('#' :: (intChars w ++ junk)))))))))))))))))))
      = (true, write_ipv6_groups { s with type := SUBNET_IPV6, prefixlength := l, weight := w }
          0 [g0, g1, g2, g3, g4, g5, g6, g7]) := by
  have hdot : '.' ∉ (natDigits 16 g0 ++ (':' :: (natDigits 16 g1 ++ (':' :: (natDigits 16 g2 ++
      (':' :: (natDigits 16 g3 ++ (':' :: (natDigits 16 g4 ++ (':' :: (natDigits 16 g5 ++
      (':' :: (natDigits 16 g6 ++ (':' :: (natDigits 16 g7 ++
      ('/' :: (intChars l ++ ('#' :: (intChars w ++ junk))))))))))))))))))) := by
    intro hmem
    simp only [List.mem_append, List.mem_cons] at hmem
    rcases hmem with h | h | h | h | h | h | h | h | h | h | h | h | h | h | h | h | h | h | h | h
    · exact dot_not_mem_natDigits 16 g0 (by omega) (by omega) h
    · exact absurd h (by decide)
    · exact dot_not_mem_natDigits 16 g1 (by omega) (by omega) h
    · exact absurd h (by decide)
    · exact dot_not_mem_natDigits 16 g2 (by omega) (by omega) h
    · exact absurd h (by decide)
    · exact dot_not_mem_natDigits 16 g3 (by omega) (by omega) h
    · exact absurd h (by decide)
    · exact dot_not_mem_natDigits 16 g4 (by omega) (by omega) h
    · exact absurd h (by decide)
    · exact dot_not_mem_natDigits 16 g5 (by omega) (by omega) h
    · exact absurd h (by decide)
    · exact dot_not_mem_natDigits 16 g6 (by omega) (by omega) h
    · exact absurd h (by decide)
    · exact dot_not_mem_natDigits 16 g7 (by omega) (by omega) h
    · exact absurd h (by decide)
    · exact dot_not_mem_intChars l h
    · exact absurd h (by decide)
    · exact dot_not_mem_intChars w h
    · exact hdj h
  rw [str2net, sscanf_ipv4_cidr_no_dot _ hdot,
    sscanf_ipv6_cidr_render g0 g1 g2 g3 g4 g5 g6 g7 l w h0 h1 h2 h3 h4 h5 h6 h7 junk hjunk]
  simp only []
  rw [if_neg (by omega)]
  rfl

lemma swap16_lt (v : Nat) : swap16 v < 65536 := by
  unfold swap16
  omega

lemma subnet_compare_parsed_mac (p e : subnet_t)
    (htp : p.type = SUBNET_MAC) (hte : e.type = SUBNET_MAC)
    (h2 : p.macAddress = e.macAddress) (h3 : p.weight = e.weight) (h4 : p.owner = none) :
    subnet_compare p e = 0 := by
  simp [subnet_compare, subnet_compare_mac, htp, hte, h2, h3, h4, memcmp_self]

lemma subnet_compare_parsed_ipv4 (p e : subnet_t)
    (htp : p.type = SUBNET_IPV4) (hte : e.type = SUBNET_IPV4)
    (h1 : p.prefixlength = e.prefixlength) (h2 : p.ipv4Address = e.ipv4Address)
    (h3 : p.weight = e.weight) (h4 : p.owner = none) :
    subnet_compare p e = 0 := by
  simp [subnet_compare, subnet_compare_ipv4, htp, hte, h1, h2, h3, h4, memcmp_self,
    SUBNET_MAC, SUBNET_IPV4]

lemma subnet_compare_parsed_ipv6 (p e : subnet_t)
    (htp : p.type = SUBNET_IPV6) (hte : e.type = SUBNET_IPV6)
    (h1 : p.prefixlength = e.prefixlength) (h2 : p.ipv6Address = e.ipv6Address)
    (h3 : p.weight = e.weight) (h4 : p.owner = none) :
    subnet_compare p e = 0 := by
  simp [subnet_compare, subnet_compare_ipv6, htp, hte, h1, h2, h3, h4, memcmp_self,
    SUBNET_MAC, SUBNET_IPV4, SUBNET_IPV6]

/-- C6 (claim): for every valid route entry of each of the three kinds,
rendering with `net2str` and parsing the canonical (explicit-prefix) text back
with `str2net` yields a successful parse whose result compares equal to the
original entry under the ordering policy (the parsed entry's owner is absent,
which the comparator's owner guard treats as a match). -/
theorem parse_format_round_trip :
    (∀ (e : subnet_t) (b0 b1 b2 b3 b4 b5 : Nat),
        e.type = SUBNET_MAC → e.macAddress = [b0, b1, b2, b3, b4, b5] →
        b0 < 256 → b1 < 256 → b2 < 256 → b3 < 256 → b4 < 256 → b5 < 256 →
        ∃ str, net2str e = some str ∧ (str2net zeroSubnet str).1 = true ∧
          subnet_compare (str2net zeroSubnet str).2 e = 0) ∧
    (∀ (e : subnet_t) (a b c d : Nat),
        e.type = SUBNET_IPV4 → e.ipv4Address = [a, b, c, d] →
        a ≤ 255 → b ≤ 255 → c ≤ 255 → d ≤ 255 →
        0 ≤ e.prefixlength → e.prefixlength ≤ 32 →
        ∃ str, net2str e = some str ∧ (str2net zeroSubnet str).1 = true ∧
          subnet_compare (str2net zeroSubnet str).2 e = 0) ∧
    (∀ (e : subnet_t) (s0 s1 s2 s3 s4 s5 s6 s7 : Nat),
        e.type = SUBNET_IPV6 → e.ipv6Address = [s0, s1, s2, s3, s4, s5, s6, s7] →
        s0 < 65536 → s1 < 65536 → s2 < 65536 → s3 < 65536 →
        s4 < 65536 → s5 < 65536 → s6 < 65536 → s7 < 65536 →
        0 ≤ e.prefixlength → e.prefixlength ≤ 128 →
        ∃ str, net2str e = some str ∧ (str2net zeroSubnet str).1 = true ∧
          subnet_compare (str2net zeroSubnet str).2 e = 0) := by
  refine ⟨?_, ?_, ?_⟩
  · intro e b0 b1 b2 b3 b4 b5 ht haddr h0 h1 h2 h3 h4 h5
    refine ⟨_, net2str_mac e b0 b1 b2 b3 b4 b5 ht haddr, ?_, ?_⟩
    · rw [str2net_mac_canonical zeroSubnet b0 b1 b2 b3 b4 b5 e.weight
        (by omega) (by omega) (by omega) (by omega) (by omega) (by omega)
        [] (Or.inl rfl) (by simp)]
    · rw [str2net_mac_canonical zeroSubnet b0 b1 b2 b3 b4 b5 e.weight
        (by omega) (by omega) (by omega) (by omega) (by omega) (by omega)
        [] (Or.inl rfl) (by simp),
        write_mac_bytes_eval _ b0 b1 b2 b3 b4 b5 rfl]
      refine subnet_compare_parsed_mac _ e rfl ht ?_ rfl rfl
      show [b0 % 256, b1 % 256, b2 % 256, b3 % 256, b4 % 256, b5 % 256] = e.macAddress
      rw [haddr, Nat.mod_eq_of_lt h0, Nat.mod_eq_of_lt h1, Nat.mod_eq_of_lt h2,
        Nat.mod_eq_of_lt h3, Nat.mod_eq_of_lt h4, Nat.mod_eq_of_lt h5]
  · intro e a b c d ht haddr ha hb hc hd hp0 hp32
    refine ⟨_, net2str_ipv4 e a b c d ht haddr, ?_, ?_⟩
    · rw [str2net_ipv4_canonical zeroSubnet a b c d e.prefixlength e.weight
        (by omega) (by omega) (by omega) (by omega) hp0 hp32 [] (Or.inl rfl),
        write_ipv4_octets_ok _ a b c d rfl ha hb hc hd]
    · rw [str2net_ipv4_canonical zeroSubnet a b c d e.prefixlength e.weight
        (by omega) (by omega) (by omega) (by omega) hp0 hp32 [] (Or.inl rfl),
        write_ipv4_octets_ok _ a b c d rfl ha hb hc hd]
      exact subnet_compare_parsed_ipv4 _ e rfl ht rfl haddr.symm rfl rfl
  · intro e s0 s1 s2 s3 s4 s5 s6 s7 ht haddr h0 h1 h2 h3 h4 h5 h6 h7 hp0 hp128
    refine ⟨_, net2str_ipv6 e s0 s1 s2 s3 s4 s5 s6 s7 ht haddr, ?_, ?_⟩
    · rw [str2net_ipv6_canonical zeroSubnet (ntohs s0) (ntohs s1) (ntohs s2) (ntohs s3)
        (ntohs s4) (ntohs s5) (ntohs s6) (ntohs s7) e.prefixlength e.weight
        (swap16_lt s0) (swap16_lt s1) (swap16_lt s2) (swap16_lt s3)
        (swap16_lt s4) (swap16_lt s5) (swap16_lt s6) (swap16_lt s7)
        hp0 hp128 [] (Or.inl rfl) (by simp)]
    · rw [str2net_ipv6_canonical zeroSubnet (ntohs s0) (ntohs s1) (ntohs s2) (ntohs s3)
        (ntohs s4) (ntohs s5) (ntohs s6) (ntohs s7) e.prefixlength e.weight
        (swap16_lt s0) (swap16_lt s1) (swap16_lt s2) (swap16_lt s3)
        (swap16_lt s4) (swap16_lt s5) (swap16_lt s6) (swap16_lt s7)
        hp0 hp128 [] (Or.inl rfl) (by simp),
        write_ipv6_groups_eval _ _ _ _ _ _ _ _ _ rfl]
      refine subnet_compare_parsed_ipv6 _ e rfl ht rfl ?_ rfl rfl
      show [htons (ntohs s0), htons (ntohs s1), htons (ntohs s2), htons (ntohs s3),
        htons (ntohs s4), htons (ntohs s5), htons (ntohs s6), htons (ntohs s7)]
        = e.ipv6Address
      rw [haddr]
      unfold htons ntohs
      rw [swap16_swap16 s0 h0, swap16_swap16 s1 h1, swap16_swap16 s2 h2,
        swap16_swap16 s3 h3, swap16_swap16 s4 h4, swap16_swap16 s5 h5,
        swap16_swap16 s6 h6, swap16_swap16 s7 h7]

/-- Witness for the C6 theorem: the IPv4 part applied to the concrete entry
`10.0.0.0/24#10` owned by node B. -/
theorem parse_format_round_trip_witness :
    ∃ str, net2str subnetB24 = some str ∧ (str2net zeroSubnet str).1 = true ∧
      subnet_compare (str2net zeroSubnet str).2 subnetB24 = 0 :=
  parse_format_round_trip.2.1 subnetB24 10 0 0 0 rfl rfl
    (by omega) (by omega) (by omega) (by omega) (by decide) (by decide)

/-- C5 (counterexample): `1.2.3.4/8x` is not one of the five textual forms (it
has a trailing character after a well-formed prefix), yet parsing succeeds —
`sscanf` stops after its conversions and ignores trailing input. -/
theorem str2net_accepts_trailing_junk :
    (str2net zeroSubnet ("1.2.3.4/8x".data)).1 = true ∧
    (str2net zeroSubnet ("1.2.3.4/8x".data)).2.type = SUBNET_IPV4 ∧
    (str2net zeroSubnet ("1.2.3.4/8x".data)).2.prefixlength = 8 ∧
    (str2net zeroSubnet ("1.2.3.4/8x".data)).2.weight = 10 ∧
    (str2net zeroSubnet ("1.2.3.4/8x".data)).2.ipv4Address = [1, 2, 3, 4] := by
  decide

/-- C5 (amended): parse succeeds exactly when `sscanf` completes the required
conversions of one of the five forms on a leading portion of the string;
characters after the consumed portion are ignored.  In particular, appending
trailing input that does not extend the last number (its first character is not
a digit) after a complete canonical form of any of the three kinds never
changes the parse result. -/
theorem str2net_trailing_junk_ignored :
    (∀ (s : subnet_t) (a b c d : Nat) (l w : Int) (junk : List Char),
        a < 65536 → b < 65536 → c < 65536 → d < 65536 →
        0 ≤ l → l ≤ 32 → scanStop decVal? junk →
        str2net s (natDigits 10 a ++ ('.' :: (natDigits 10 b ++ ('.' :: (natDigits 10 c ++
          ('.' :: (natDigits 10 d ++ ('/' :: (intChars l ++ ('#' :: (intChars w ++ junk)))))))))))
        = str2net s (natDigits 10 a ++ ('.' :: (natDigits 10 b ++ ('.' :: (natDigits 10 c ++
          ('.' :: (natDigits 10 d ++ ('/' :: (intChars l ++ ('#' :: (intChars w ++ [])))))))))))) ∧
    (∀ (s : subnet_t) (x0 x1 x2 x3 x4 x5 : Nat) (w : Int) (junk : List Char),
        x0 < 65536 → x1 < 65536 → x2 < 65536 → x3 < 65536 → x4 < 65536 → x5 < 65536 →
        scanStop decVal? junk → '.' ∉ junk →
        str2net s (natDigits 16 x0 ++ (':' :: (natDigits 16 x1 ++ (':' :: (natDigits 16 x2 ++
          (':' :: (natDigits 16 x3 ++ (':' :: (natDigits 16 x4 ++ (':' :: (natDigits 16 x5 ++
          ('#' :: (intChars w ++ junk)))))))))))))
        = str2net s (natDigits 16 x0 ++ (':' :: (natDigits 16 x1 ++ (':' :: (natDigits 16 x2 ++
          (':' :: (natDigits 16 x3 ++ (':' :: (natDigits 16 x4 ++ (':' :: (natDigits 16 x5 ++
          ('#' :: (intChars w ++ [])))))))))))))) ∧
    (∀ (s : subnet_t) (g0 g1 g2 g3 g4 g5 g6 g7 : Nat) (l w : Int) (junk : List Char),
        g0 < 65536 → g1 < 65536 → g2 < 65536 → g3 < 65536 →
        g4 < 65536 → g5 < 65536 → g6 < 65536 → g7 < 65536 →
        0 ≤ l → l ≤ 128 → scanStop decVal? junk → '.' ∉ junk →
        str2net s (natDigits 16 g0 ++ (':' :: (natDigits 16 g1 ++ (':' :: (natDigits 16 g2 ++
          (':' :: (natDigits 16 g3 ++ (':' :: (natDigits 16 g4 ++ (':' :: (natDigits 16 g5 ++
          (':' :: (natDigits 16 g6 ++ (':' :: (natDigits 16 g7 ++
          ('/' :: (intChars l ++ ('#' :: (intChars w ++ junk)))))))))))))))))))
        = str2net s (natDigits 16 g0 ++ (':' :: (natDigits 16 g1 ++ (':' :: (natDigits 16 g2 ++
          (':' :: (natDigits 16 g3 ++ (':' :: (natDigits 16 g4 ++ (':' :: (natDigits 16 g5 ++
          (':' :: (natDigits 16 g6 ++ (':' :: (natDigits 16 g7 ++
          ('/' :: (intChars l ++ ('#' :: (intChars w ++ [])))))))))))))))))))) := by
  refine ⟨?_, ?_, ?_⟩
  · intro s a b c d l w junk ha hb hc hd hl0 hl32 hjunk
    rw [str2net_ipv4_canonical s a b c d l w ha hb hc hd hl0 hl32 junk hjunk,
      str2net_ipv4_canonical s a b c d l w ha hb hc hd hl0 hl32 [] (Or.inl rfl)]
  · intro s x0 x1 x2 x3 x4 x5 w junk h0 h1 h2 h3 h4 h5 hjunk hdj
    rw [str2net_mac_canonical s x0 x1 x2 x3 x4 x5 w h0 h1 h2 h3 h4 h5 junk hjunk hdj,
      str2net_mac_canonical s x0 x1 x2 x3 x4 x5 w h0 h1 h2 h3 h4 h5 [] (Or.inl rfl) (by simp)]
  · intro s g0 g1 g2 g3 g4 g5 g6 g7 l w junk h0 h1 h2 h3 h4 h5 h6 h7 hl0 hl128 hjunk hdj
    rw [str2net_ipv6_canonical s g0 g1 g2 g3 g4 g5 g6 g7 l w h0 h1 h2 h3 h4 h5 h6 h7
        hl0 hl128 junk hjunk hdj,
      str2net_ipv6_canonical s g0 g1 g2 g3 g4 g5 g6 g7 l w h0 h1 h2 h3 h4 h5 h6 h7
        hl0 hl128 [] (Or.inl rfl) (by simp)]

/-- Witness for the amended C5 theorem: the IPv4 part applied to `1.2.3.4/8#10`
with the junk suffix `"x"`. -/
theorem str2net_trailing_junk_ignored_witness :
    str2net zeroSubnet (natDigits 10 1 ++ ('.' :: (natDigits 10 2 ++ ('.' :: (natDigits 10 3 ++
      ('.' :: (natDigits 10 4 ++ ('/' :: (intChars 8 ++ ('#' :: (intChars 10 ++ ['x'])))))))))))
    = str2net zeroSubnet (natDigits 10 1 ++ ('.' :: (natDigits 10 2 ++ ('.' :: (natDigits 10 3 ++
      ('.' :: (natDigits 10 4 ++ ('/' :: (intChars 8 ++ ('#' :: (intChars 10 ++ []))))))))))) :=
  str2net_trailing_junk_ignored.1 zeroSubnet 1 2 3 4 8 10 ['x']
    (by omega) (by omega) (by omega) (by omega) (by omega) (by omega)
    (Or.inr ⟨'x', [], rfl, by decide⟩)

/-- C10 (claim): the 6-hextet MAC form is parsed with no range validation — any
hextet representable in 16 bits is accepted and only its low 8 bits are stored —
so distinct inputs (hextets `1ff` and `ff`) parse to entries with identical
MAC addresses. -/
theorem str2net_mac_truncates :
    (∀ (x0 x1 x2 x3 x4 x5 : Nat) (w : Int),
        x0 < 65536 → x1 < 65536 → x2 < 65536 → x3 < 65536 → x4 < 65536 → x5 < 65536 →
        (str2net zeroSubnet (natDigits 16 x0 ++ (':' :: (natDigits 16 x1 ++
          (':' :: (natDigits 16 x2 ++ (':' :: (natDigits 16 x3 ++ (':' :: (natDigits 16 x4 ++
          (':' :: (natDigits 16 x5 ++ ('#' :: (intChars w ++ [])))))))))))))).1 = true ∧
        (str2net zeroSubnet (natDigits 16 x0 ++ (':' :: (natDigits 16 x1 ++
          (':' :: (natDigits 16 x2 ++ (':' :: (natDigits 16 x3 ++ (':' :: (natDigits 16 x4 ++
          (':' :: (natDigits 16 x5 ++ ('#' :: (intChars w ++ [])))))))))))))).2.macAddress
          = [x0 % 256, x1 % 256, x2 % 256, x3 % 256, x4 % 256, x5 % 256]) ∧
    ((str2net zeroSubnet ("1ff:0:0:0:0:0#10".data)).1 = true ∧
     (str2net zeroSubnet ("ff:0:0:0:0:0#10".data)).1 = true ∧
     "1ff:0:0:0:0:0#10" ≠ "ff:0:0:0:0:0#10" ∧
     (str2net zeroSubnet ("1ff:0:0:0:0:0#10".data)).2.macAddress
       = (str2net zeroSubnet ("ff:0:0:0:0:0#10".data)).2.macAddress) := by
  constructor
  · intro x0 x1 x2 x3 x4 x5 w h0 h1 h2 h3 h4 h5
    rw [str2net_mac_canonical zeroSubnet x0 x1 x2 x3 x4 x5 w h0 h1 h2 h3 h4 h5
        [] (Or.inl rfl) (by simp),
      write_mac_bytes_eval _ x0 x1 x2 x3 x4 x5 rfl]
    exact ⟨rfl, rfl⟩
  · refine ⟨by decide, by decide, by decide, by decide⟩

/-- Witness for the C10 theorem: its general part applied to the hextets of
`1ff:aa:bb:cc:dd:ee#10`. -/
theorem str2net_mac_truncates_witness :
    (str2net zeroSubnet (natDigits 16 511 ++ (':' :: (natDigits 16 170 ++
      (':' :: (natDigits 16 187 ++ (':' :: (natDigits 16 204 ++ (':' :: (natDigits 16 221 ++
      (':' :: (natDigits 16 238 ++ ('#' :: (intChars 10 ++ [])))))))))))))).2.macAddress
      = [511 % 256, 170 % 256, 187 % 256, 204 % 256, 221 % 256, 238 % 256] :=
  (str2net_mac_truncates.1 511 170 187 204 221 238 10
    (by omega) (by omega) (by omega) (by omega) (by omega) (by omega)).2
